import Mathlib

/-!
# Memo_app: the routes of the server (`server/routes/memo.js`, `account.js`)

A shallow embedding of the request handlers of the memo service and of the
account service.  A handler that touches a collection is a pure function from
the request data, the session and the collection to a response and the
collection afterwards; a handler that can throw returns an `Except`.  The
storage callbacks of the source rethrow a storage error (`if(err) throw err`);
the embedding describes the runs in which the document store answers.
-/

namespace MemoApp

/-! ## Values of the request and of the store -/

/-- A JavaScript value as a parsed request body carries it.  The routes look at
the type of a value, at its text (`toStringJs`) and, for a string, at its
characters; `num n` is the number with the integer value `n`. -/
inductive JsVal where
  | undefined
  | null
  | bool (b : Bool)
  | num (n : Int)
  | str (s : String)
  | arr (items : List JsVal)
  | obj (fields : List (String × JsVal))

/-- The JavaScript `typeof` operator. -/
def JsVal.typeof : JsVal → String
  | .undefined => "undefined"
  | .null => "object"
  | .bool _ => "boolean"
  | .num _ => "number"
  | .str _ => "string"
  | .arr _ => "object"
  | .obj _ => "object"

/-- A document identifier: the twelve bytes of an ObjectId read as a number, so
that the order of the store on `_id` is the order of `Nat`. -/
abbrev ObjectId := Nat

/-- The two functions of `mongoose.Types.ObjectId` the routes call on the `:id`
path segment: `isValid(id)` and the constructor `new ObjectId(id)`.  They belong
to a library, so the handlers take them as a parameter. -/
structure Mongoose where
  isValid : String → Bool
  objectId : String → ObjectId

/-- Modelled from the spec: the Memo document type.  The schema
(`server/models/memo`) is not among the sources; the fields are those the
routes read and write (`writer`, `contents`, `starred`, `date.edited`,
`is_edited`) and those the spec lists (`createdAt`; `editedAt` is unset and
`isEdited` false until the first edit). -/
structure Memo where
  _id : ObjectId
  writer : String
  contents : String
  starred : List String
  date_created : Nat
  date_edited : Option Nat
  is_edited : Bool
deriving DecidableEq, Repr

/-- The value `req.session.loginInfo` holds after a sign-in. -/
structure LoginInfo where
  _id : ObjectId
  username : String
deriving DecidableEq, Repr

/-- The session of a request; `loginInfo = none` is the JavaScript `undefined`. -/
structure Session where
  loginInfo : Option LoginInfo
deriving DecidableEq, Repr

/-- The JSON bodies the routes send: `{ error, code }`, `{ success: true }` alone
or with the memo (and `has_starred`), an array of memos, `{ info }` of the
account route `getinfo`, `{ sucess: true }` of the account route `logout`, and
the array of `{ username }` objects of the account search. -/
inductive Body where
  | error (error : String) (code : Nat)
  | success
  | successMemo (memo : Memo)
  | successStar (has_starred : Bool) (memo : Memo)
  | memos (memos : List Memo)
  | info (info : LoginInfo)
  | sucess
  | usernames (usernames : List String)
deriving DecidableEq, Repr

/-- A response: the HTTP status (200 when the route sets none) and the body. -/
structure Response where
  status : Nat
  body : Body
deriving DecidableEq, Repr

/-- True on the bodies that carry `success: true`. -/
def Body.isSuccess : Body → Bool
  | .success => true
  | .successMemo _ => true
  | .successStar _ _ => true
  | _ => false

/-! ## The collection -/

/-- The memo collection, in insertion order. -/
abbrev Store := List Memo

/-- The query `Memo.findById(id)`: the first document with that `_id`. -/
def findById (store : Store) (id : ObjectId) : Option Memo :=
  store.find? (fun m => m._id == id)

/-- The call `memo.save()` on a document made by `new Memo(...)`: one insert. -/
def insert (store : Store) (memo : Memo) : Store :=
  store ++ [memo]

/-- The call `memo.save()` on a document that was fetched: the first document
with the same `_id` is replaced. -/
def update : Store → Memo → Store
  | [], _ => []
  | m :: rest, memo =>
    if m._id == memo._id then memo :: rest else m :: update rest memo

/-- The call `Memo.remove({ _id: id })`: every document with that `_id` goes. -/
def remove (store : Store) (id : ObjectId) : Store :=
  store.filter (fun m => m._id != id)

/-- Modelled from the spec: the document `new Memo({ writer, contents })`
builds.  The schema defaults are not among the sources; by the spec a new memo
has `createdAt` = now, `isEdited` = false and `starred` = empty. -/
def newMemo (newId : ObjectId) (now : Nat) (writer contents : String) : Memo :=
  { _id := newId, writer := writer, contents := contents, starred := [],
    date_created := now, date_edited := none, is_edited := false }

/-- The query modifier `.sort({ _id: -1 })`: descending by identifier. -/
def sortByIdDesc (memos : List Memo) : List Memo :=
  memos.insertionSort (fun a b => b._id ≤ a._id)

/-! ## Array methods used by the star route -/

/-- The loop of `Array.prototype.indexOf`, scanning from position `i`. -/
def indexOfFrom : List String → String → Nat → Int
  | [], _, _ => -1
  | y :: ys, x, i => if y == x then (i : Int) else indexOfFrom ys x (i + 1)

/-- The method `Array.prototype.indexOf`: the first position of `x`, or `-1`. -/
def indexOf (xs : List String) (x : String) : Int :=
  indexOfFrom xs x 0

/-- The method `Array.prototype.splice(start, deleteCount)`: the array without
the `deleteCount` elements from `start` on; a negative `start` counts from the
end. -/
def splice (xs : List String) (start : Int) (deleteCount : Nat) : List String :=
  let actualStart : Nat :=
    if start < 0 then ((xs.length : Int) + start).toNat else min start.toNat xs.length
  xs.take actualStart ++ xs.drop (actualStart + deleteCount)

/-! ## The routes -/

/-- The route `POST /api/memo` (write memo).  `newId` is the identifier the
driver gives the new document and `now` the clock.  The test
`typeof contents !== 'string'` is the last arm of the match on `contents`, the
test `contents === ""` the `if` of its first arm. -/
def postMemo (newId : ObjectId) (now : Nat) (session : Session) (contents : JsVal)
    (store : Store) : Response × Store :=
  match session.loginInfo with
  | none => (⟨403, .error "NOT LOGGED IN" 1⟩, store)
  | some loginInfo =>
    match contents with
    | .str s =>
      if s == "" then (⟨400, .error "EMPTY CONTENTS" 3⟩, store)
      else (⟨200, .success⟩, insert store (newMemo newId now loginInfo.username s))
    | _ => (⟨400, .error "CONTENTS IS NOT STRING" 2⟩, store)

/-- The route `PUT /api/memo/:id` (modify memo).  As in `postMemo`, the match
on `contents` is the pair of tests on the type and on the empty string, which
come before the session test. -/
def putMemo (mongoose : Mongoose) (now : Nat) (id : String) (session : Session)
    (contents : JsVal) (store : Store) : Response × Store :=
  if !mongoose.isValid id then (⟨400, .error "INVALID ID" 1⟩, store)
  else
    match contents with
    | .str s =>
      if s == "" then (⟨400, .error "EMPTY CONTENTS" 3⟩, store)
      else
        match session.loginInfo with
        | none => (⟨403, .error "NOT LOGGED IN" 4⟩, store)
        | some loginInfo =>
          match findById store (mongoose.objectId id) with
          | none => (⟨404, .error "NO RESOURCE" 5⟩, store)
          | some memo =>
            if memo.writer != loginInfo.username then
              (⟨403, .error "PERMISSION FAILURE" 6⟩, store)
            else
              let memo := { memo with contents := s, date_edited := some now,
                                      is_edited := true }
              (⟨200, .successMemo memo⟩, update store memo)
    | _ => (⟨400, .error "CONTENTS IS NOT STRING" 2⟩, store)

/-- The route `DELETE /api/memo/:id` (delete memo). -/
def deleteMemo (mongoose : Mongoose) (id : String) (session : Session)
    (store : Store) : Response × Store :=
  if !mongoose.isValid id then (⟨400, .error "INVALID ID" 1⟩, store)
  else
    match session.loginInfo with
    | none => (⟨403, .error "NOT LOGGED IN" 2⟩, store)
    | some loginInfo =>
      match findById store (mongoose.objectId id) with
      | none => (⟨404, .error "NO RESOURCE" 3⟩, store)
      | some memo =>
        if memo.writer != loginInfo.username then
          (⟨403, .error "PERMISSION FAILURE" 4⟩, store)
        else (⟨200, .success⟩, remove store (mongoose.objectId id))

/-- The route `GET /api/memo` (memo list): `find().sort({_id: -1}).limit(6)`. -/
def getMemo (store : Store) : Response :=
  ⟨200, .memos ((sortByIdDesc store).take 6)⟩

/-- The route `GET /api/memo/:listType/:id` (older or newer memos). -/
def getMemoPage (mongoose : Mongoose) (listType id : String) (store : Store) : Response :=
  if listType != "old" && listType != "new" then ⟨400, .error "INVALID LISTTYPE" 1⟩
  else if !mongoose.isValid id then ⟨400, .error "INVALID ID" 2⟩
  else
    let objId := mongoose.objectId id
    if listType == "new" then
      ⟨200, .memos ((sortByIdDesc (store.filter (fun m => decide (m._id > objId)))).take 6)⟩
    else
      ⟨200, .memos ((sortByIdDesc (store.filter (fun m => decide (m._id < objId)))).take 6)⟩

/-- The route `POST /api/memo/star/:id` (toggle the star of a memo). -/
def postStar (mongoose : Mongoose) (id : String) (session : Session)
    (store : Store) : Response × Store :=
  if !mongoose.isValid id then (⟨400, .error "INVALID ID" 1⟩, store)
  else
    match session.loginInfo with
    | none => (⟨403, .error "NOT LOGGED IN" 2⟩, store)
    | some loginInfo =>
      match findById store (mongoose.objectId id) with
      | none => (⟨404, .error "NO RESOURCE" 3⟩, store)
      | some memo =>
        let index := indexOf memo.starred loginInfo.username
        let hasStarred := index != -1
        let memo :=
          if !hasStarred then { memo with starred := memo.starred ++ [loginInfo.username] }
          else { memo with starred := splice memo.starred index 1 }
        (⟨200, .successStar (!hasStarred) memo⟩, update store memo)

/-- The route `GET /api/memo/:username` (memos of a user). -/
def getUserMemo (username : String) (store : Store) : Response :=
  ⟨200, .memos ((sortByIdDesc (store.filter (fun m => m.writer == username))).take 6)⟩

/-- The route `GET /api/memo/:username/:listType/:id` (older or newer memos of
a user). -/
def getUserMemoPage (mongoose : Mongoose) (username listType id : String)
    (store : Store) : Response :=
  if listType != "old" && listType != "new" then ⟨400, .error "INVALID LISTTYPE" 1⟩
  else if !mongoose.isValid id then ⟨400, .error "INVALID ID" 2⟩
  else
    let objId := mongoose.objectId id
    if listType == "new" then
      ⟨200, .memos ((sortByIdDesc (store.filter
        (fun m => m.writer == username && decide (m._id > objId)))).take 6)⟩
    else
      ⟨200, .memos ((sortByIdDesc (store.filter
        (fun m => m.writer == username && decide (m._id < objId)))).take 6)⟩

/-! ## The account routes (`server/routes/account.js`) -/

/-- The text of a JavaScript number with integer value `n`.  From `10 ^ 21` on
JavaScript writes a number with an exponent; the digits of the mantissa are
left out here, the exponent mark `e+` is kept. -/
def numberToString (n : Int) : String :=
  if n.natAbs < 10 ^ 21 then toString n
  else (if n < 0 then "-" else "") ++ "e+" ++ toString ((toString n.natAbs).length - 1)

/-- An object of a parsed body has an own property of that name. -/
def hasOwnKey (fields : List (String × JsVal)) (key : String) : Bool :=
  fields.any (fun f => f.1 == key)

/-- The value of a property of an object of a parsed body: the last entry of
the key (`JSON.parse` keeps the last of a repeated key), `undefined` without
one. -/
def getField (fields : List (String × JsVal)) (key : String) : JsVal :=
  match fields.reverse.find? (fun f => f.1 == key) with
  | some f => f.2
  | none => .undefined

mutual
/-- The JavaScript conversion `ToString(v)`, which `RegExp.prototype.test`
applies to its argument.  An object of a parsed body is converted by the
`toString` of `Object.prototype`, unless it has an own property `toString`:
that one is no function, `valueOf` gives no primitive value either, and the
conversion throws a TypeError.  An array is converted element by element. -/
def toStringJs : JsVal → Except String String
  | .undefined => .ok "undefined"
  | .null => .ok "null"
  | .bool b => .ok (if b then "true" else "false")
  | .num n => .ok (numberToString n)
  | .str s => .ok s
  | .arr items => joinJs items
  | .obj fields =>
    if hasOwnKey fields "toString" then
      .error "TypeError: Cannot convert object to primitive value"
    else .ok "[object Object]"
/-- The text of an array: the texts of the elements, separated by commas. -/
def joinJs : List JsVal → Except String String
  | [] => .ok ""
  | [v] => elemJs v
  | v :: w :: rest =>
    match elemJs v with
    | .error e => .error e
    | .ok first =>
      match joinJs (w :: rest) with
      | .error e => .error e
      | .ok others => .ok (first ++ "," ++ others)
/-- The text of an array element: empty for `undefined` and `null`. -/
def elemJs : JsVal → Except String String
  | .undefined => .ok ""
  | .null => .ok ""
  | .bool b => .ok (if b then "true" else "false")
  | .num n => .ok (numberToString n)
  | .str s => .ok s
  | .arr items => joinJs items
  | .obj fields =>
    if hasOwnKey fields "toString" then
      .error "TypeError: Cannot convert object to primitive value"
    else .ok "[object Object]"
end

/-- A character of the class `[a-z0-9]`. -/
def isUsernameChar (c : Char) : Bool :=
  ('a' ≤ c && c ≤ 'z') || ('0' ≤ c && c ≤ '9')

/-- The test `/^[a-z0-9]+$/.test(v)` of the signup route: the text of `v` is
not empty and has only characters of the class; the test throws when the
conversion of `v` to text does. -/
def usernameRegexTest (v : JsVal) : Except String Bool :=
  match toStringJs v with
  | .error e => .error e
  | .ok text => .ok (!text.data.isEmpty && text.data.all isUsernameChar)

/-- The evaluation of `v < 4`, as far as the signup route depends on it:
whether it throws.  An object or an array operand is first converted to a
primitive value (`valueOf` gives none, so by its text), which throws when the
conversion to text does; any other operand is compared without a throw. -/
def comparisonRuns (v : JsVal) : Except String Unit :=
  match v with
  | .arr items =>
    match toStringJs (.arr items) with
    | .error e => .error e
    | .ok _ => .ok ()
  | .obj fields =>
    match toStringJs (.obj fields) with
    | .error e => .error e
    | .ok _ => .ok ()
  | _ => .ok ()

/-- The `length` of a JavaScript string: its number of UTF-16 code units. -/
def jsLength (s : String) : Nat :=
  s.data.foldl (fun n c => n + (if c.toNat < 65536 then 1 else 2)) 0

/-- Modelled from the spec: the Account document type.  The schema
(`server/models/account`) is not among the sources; the fields are those the
routes write (`username`, `password` for the hash, `salt`).  `username` is
`none` in a document built from a value of which the schema makes no string. -/
structure Account where
  _id : ObjectId
  username : Option String
  password : String
  salt : String
deriving DecidableEq, Repr

/-- The account collection, in insertion order. -/
abbrev Accounts := List Account

/-- The library functions the account routes call, taken as a parameter:
`hash password salt` is the hash `pbkdf2-password` derives; `castString v` is
what mongoose makes of a body value at the String path `username` (an error,
no string, or a string); `regExp source` is `none` when `new RegExp(source)`
throws and otherwise the test the `$regex` query applies to a username. -/
structure AccountLib where
  hash : String → String → String
  castString : JsVal → Except String (Option String)
  regExp : String → Option (String → Bool)

deriving instance DecidableEq for Except

/-- The value a query or a new document holds at the path `username` for the
body value `v`: the string itself for a string, the cast of the library for
another value. -/
def usernameKey (lib : AccountLib) : JsVal → Except String (Option String)
  | .str s => .ok (some s)
  | v => lib.castString v

/-- The query `Account.findOne({ username })`: the first such document. -/
def findOne (accounts : Accounts) (username : Option String) : Option Account :=
  accounts.find? (fun a => a.username == username)

/-- The route `POST /api/account/signup`.  `newId` is the identifier of the new
document and `salt` the salt the hasher draws.  The arms of the match on
`password` are the outcomes of
`password.length < 4 || typeof password !== "string"`: reading `length` of
`undefined` or `null` throws a TypeError; a string is rejected when it is
short; for an object the comparison of its `length` property is evaluated,
which can throw, and the second test rejects it; any other value has a number
or `undefined` as `length` and is rejected by the second test. -/
def signup (lib : AccountLib) (newId : ObjectId) (salt : String)
    (username password : JsVal) (accounts : Accounts) :
    Except String (Response × Accounts) :=
  match usernameRegexTest username with
  | .error e => .error e
  | .ok false => .ok (⟨400, .error "BAD USERNAME" 1⟩, accounts)
  | .ok true =>
    match password with
    | .undefined => .error "TypeError: Cannot read property 'length' of undefined"
    | .null => .error "TypeError: Cannot read property 'length' of null"
    | .str p =>
      if jsLength p < 4 then .ok (⟨400, .error "BAD PASSWORD" 2⟩, accounts)
      else
        match usernameKey lib username with
        | .error e => .error e
        | .ok key =>
          match findOne accounts key with
          | some _ => .ok (⟨409, .error "USERNAME EXISTS" 3⟩, accounts)
          | none =>
            .ok (⟨200, .success⟩,
              accounts ++ [{ _id := newId, username := key, password := lib.hash p salt,
                             salt := salt }])
    | .obj fields =>
      match comparisonRuns (getField fields "length") with
      | .error e => .error e
      | .ok _ => .ok (⟨400, .error "BAD PASSWORD" 2⟩, accounts)
    | _ => .ok (⟨400, .error "BAD PASSWORD" 2⟩, accounts)

/-- The route `POST /api/account/signin`, for a request whose `username` is a
string.  The account is found by that username, so `account.username` is it. -/
def signin (lib : AccountLib) (username : String) (password : JsVal) (session : Session)
    (accounts : Accounts) : Response × Session :=
  match password with
  | .str p =>
    match findOne accounts (some username) with
    | none => (⟨401, .error "THERE IS NO USER" 2⟩, session)
    | some account =>
      if lib.hash p account.salt == account.password then
        (⟨200, .success⟩,
          { session with loginInfo := some { _id := account._id,
                                             username := account.username.getD username } })
      else (⟨401, .error "PASSWORD IS NOT CORRECT" 3⟩, session)
  | _ => (⟨401, .error "PASSWORD IS NOT STRING" 1⟩, session)

/-- The route `GET /api/account/getinfo`. -/
def getinfo (session : Session) : Response :=
  match session.loginInfo with
  | none => ⟨401, .error "THERE IS NO LOGIN DATA" 1⟩
  | some loginInfo => ⟨200, .info loginInfo⟩

/-- The route `POST /api/account/logout`: the session is destroyed and the body
`{ sucess: true }` is sent. -/
def logout (_session : Session) : Response × Session :=
  (⟨200, .sucess⟩, { loginInfo := none })

/-- The order the store sorts strings by: character by character, a proper
initial part first. -/
def leChars : List Char → List Char → Bool
  | [], _ => true
  | _ :: _, [] => false
  | a :: as, b :: bs => decide (a.toNat < b.toNat) || (a == b && leChars as bs)

/-- The query modifier `.sort({ username: 1 })` on the matching usernames. -/
def sortAscending (names : List String) : List String :=
  names.insertionSort (fun a b => leChars a.data b.data = true)

/-- The route `GET /api/account/search/:username`: the usernames the pattern
`'^' + username` matches, ascending, five at most (the query sorts before it
limits, whatever the order of the two calls). -/
def search (lib : AccountLib) (username : String) (accounts : Accounts) :
    Except String Response :=
  match lib.regExp ("^" ++ username) with
  | none => .error "SyntaxError: Invalid regular expression"
  | some re =>
    .ok ⟨200, .usernames
      ((sortAscending ((accounts.filterMap (fun a => a.username)).filter re)).take 5)⟩

/-- The route `GET /api/account/search` (empty search request). -/
def searchEmpty : Response :=
  ⟨200, .usernames []⟩

/-- The keys of the JSON object a body is (none for an array). -/
def Body.keys : Body → List String
  | .error _ _ => ["error", "code"]
  | .success => ["success"]
  | .successMemo _ => ["success", "memo"]
  | .successStar _ _ => ["success", "has_starred", "memo"]
  | .memos _ => []
  | .info _ => ["info"]
  | .sucess => ["sucess"]
  | .usernames _ => []

/-! ## Concrete data for the worked examples -/

/-- The 24 hexadecimal digits test of `ObjectId.isValid`, on a character list. -/
def isHex24 (s : String) : Bool :=
  s.data.length == 24 && s.data.all (fun c => c.isDigit || ('a' ≤ c && c ≤ 'f'))

/-- The value of one hexadecimal digit. -/
def hexDigit (c : Char) : Nat :=
  if c.isDigit then c.toNat - '0'.toNat else c.toNat - 'a'.toNat + 10

/-- A string of hexadecimal digits read as a number. -/
def hexValue (s : String) : Nat :=
  s.data.foldl (fun acc c => 16 * acc + hexDigit c) 0

/-- The hexadecimal digit of a number below 16. -/
def hexChar (d : Nat) : Char :=
  if d < 10 then Char.ofNat (48 + d) else Char.ofNat (87 + d)

/-- The last `k` hexadecimal digits of a number. -/
def hexDigits : Nat → Nat → List Char
  | 0, _ => []
  | k + 1, n => hexDigits k (n / 16) ++ [hexChar (n % 16)]

/-- The text of an identifier, for the examples: its 24 hexadecimal digits. -/
def toHex24 (n : ObjectId) : String :=
  String.mk (hexDigits 24 n)

/-- An identifier format for the examples: 24 lower-case hexadecimal digits. -/
def hexMongoose : Mongoose :=
  { isValid := isHex24, objectId := hexValue }

/-- The starred list after a toggle by `u`, in list operations: `u` erased when
present, appended when absent. -/
def toggled (xs : List String) (u : String) : List String :=
  if u ∈ xs then xs.erase u else xs ++ [u]

/-- The invariant of the collection: every stored memo has non-empty contents
and a starred list without a repeated username. -/
def StoreInvariant (store : Store) : Prop :=
  ∀ m ∈ store, m.contents ≠ "" ∧ m.starred.Nodup

/-- The memo list a response carries (empty for a body that is not a list). -/
def Response.memoList (r : Response) : List Memo :=
  match r.body with
  | .memos l => l
  | _ => []

/-- The number `n` is the smallest identifier of the page. -/
def IsSmallestId (page : List Memo) (n : ObjectId) : Prop :=
  (∃ m ∈ page, m._id = n) ∧ ∀ m ∈ page, n ≤ m._id

/-- The identifiers of the two pages are disjoint. -/
def DisjointIds (p q : List Memo) : Prop :=
  ∀ a ∈ p, ∀ b ∈ q, a._id ≠ b._id

/-- The list is strictly descending by identifier. -/
def StrictlyDescending (page : List Memo) : Prop :=
  page.Pairwise (fun a b => b._id < a._id)

/-- The memos of the collection have distinct identifiers. -/
def DistinctIds (store : Store) : Prop :=
  (store.map (fun m => m._id)).Nodup

instance (page : List Memo) (n : ObjectId) : Decidable (IsSmallestId page n) := by
  unfold IsSmallestId
  infer_instance

instance (p q : List Memo) : Decidable (DisjointIds p q) := by
  unfold DisjointIds
  infer_instance

instance (page : List Memo) : Decidable (StrictlyDescending page) := by
  unfold StrictlyDescending
  infer_instance

instance (store : Store) : Decidable (DistinctIds store) := by
  unfold DistinctIds
  infer_instance

/-! ## Paging back through the feed -/

/-- The smallest identifier of a page, `none` for an empty page. -/
def smallestIdOf : List Memo → Option ObjectId
  | [] => none
  | m :: rest => some (rest.foldl (fun acc x => min acc x._id) m._id)

/-- The traversal of a client that pages back through the feed, from a page
just received: an empty page ends it; otherwise the next request is
`GET /api/memo/old/:id` with the smallest identifier of the page as cursor.
`idString` is the text of an identifier, as the JSON of a memo carries `_id`.
The result is the list of the pages received before the empty one, `none` when
the fuel runs out first. -/
def traverse (mongoose : Mongoose) (idString : ObjectId → String) (store : Store) :
    Nat → List Memo → Option (List (List Memo))
  | 0, _ => none
  | fuel + 1, page =>
    match smallestIdOf page with
    | none => some []
    | some c =>
      match traverse mongoose idString store fuel
          (getMemoPage mongoose "old" (idString c) store).memoList with
      | none => none
      | some pages => some (page :: pages)

/-- The whole traversal: it starts with the page of `GET /api/memo`. -/
def traversal (mongoose : Mongoose) (idString : ObjectId → String) (store : Store)
    (fuel : Nat) : Option (List (List Memo)) :=
  traverse mongoose idString store fuel (getMemo store).memoList

/-- An identifier string of the examples. -/
def idA : String := "5a0000000000000000000001"

/-- A second identifier string of the examples. -/
def idB : String := "5a0000000000000000000002"

/-- A memo of alice, starred by bob. -/
def memoA : Memo :=
  { _id := hexValue idA, writer := "alice", contents := "hello", starred := ["bob"],
    date_created := 10, date_edited := none, is_edited := false }

/-- A memo of bob, starred by nobody. -/
def memoB : Memo :=
  { _id := hexValue idB, writer := "bob", contents := "world", starred := [],
    date_created := 20, date_edited := none, is_edited := false }

/-- A collection of two memos. -/
def storeAB : Store := [memoA, memoB]

/-- The identifier string below every identifier of `storeEight`. -/
def idZero : String := "5a0000000000000000000000"

/-- The identifier string of the third memo of `storeEight`. -/
def idThree : String := "5a0000000000000000000003"

/-- An identifier string above every identifier of `storeEight`. -/
def idNine : String := "5a0000000000000000000009"

/-- The memo number `k` of the paging examples. -/
def numberedMemo (k : Nat) : Memo :=
  { _id := hexValue idZero + k, writer := if k % 2 = 0 then "bob" else "alice",
    contents := "memo", starred := [], date_created := k, date_edited := none,
    is_edited := false }

/-- A collection of eight memos, in insertion order. -/
def storeEight : Store :=
  [numberedMemo 1, numberedMemo 2, numberedMemo 3, numberedMemo 4, numberedMemo 5,
   numberedMemo 6, numberedMemo 7, numberedMemo 8]

/-- The cast of a body value at a String path, for the examples: a number or a
boolean gives its text, `undefined` and `null` give no string, an array or an
object is refused. -/
def exampleCast : JsVal → Except String (Option String)
  | .undefined => .ok none
  | .null => .ok none
  | .bool b => .ok (some (if b then "true" else "false"))
  | .num n => .ok (some (numberToString n))
  | .str s => .ok (some s)
  | .arr _ => .error "CastError"
  | .obj _ => .error "CastError"

/-- A character with a meaning of its own in a regular expression. -/
def isRegexMeta (c : Char) : Bool :=
  c ∈ ['\\', '^', '$', '.', '*', '+', '?', '(', ')', '[', ']', '\x7b', '\x7d', '|']

/-- The match of a pattern of literal characters and `.` at the start of a
text; `.` stands for any character but a line break. -/
def matchStart : List Char → List Char → Bool
  | [], _ => true
  | _ :: _, [] => false
  | p :: ps, c :: cs =>
    (if p = '.' then c != '\n' && c != '\r' else p == c) && matchStart ps cs

/-- A regular-expression engine for the examples, exact on the patterns made
of `^` followed by literal characters and `.`; it answers `none` on every other
pattern. -/
def simpleRegExp (source : String) : Option (String → Bool) :=
  match source.data with
  | '^' :: ps =>
    if ps.all (fun c => c = '.' || !isRegexMeta c) then some (fun s => matchStart ps s.data)
    else none
  | _ => none

/-- The library of the examples; the hash is a stand-in that joins salt and
password. -/
def exampleLib : AccountLib :=
  { hash := fun password salt => salt ++ "$" ++ password,
    castString := exampleCast,
    regExp := simpleRegExp }

/-- The account of alice, with password `pass1` and salt `s1`. -/
def aliceAccount : Account :=
  { _id := 7, username := some "alice", password := "s1$pass1", salt := "s1" }

/-- The account of bob, with password `pass2` and salt `s2`. -/
def bobAccount : Account :=
  { _id := 8, username := some "bob", password := "s2$pass2", salt := "s2" }

/-- The account a Register of carol with password `pass3`, identifier 9 and
salt `s9` inserts. -/
def carolAccount : Account :=
  { _id := 9, username := some "carol", password := "s9$pass3", salt := "s9" }

/-- A collection of two accounts. -/
def accountsAB : Accounts := [aliceAccount, bobAccount]

/-- The usernames of the collection are distinct. -/
def UniqueUsernames (accounts : Accounts) : Prop :=
  (accounts.map (fun a => a.username)).Nodup

instance (accounts : Accounts) : Decidable (UniqueUsernames accounts) := by
  unfold UniqueUsernames
  infer_instance

/-- The status the error classes of the spec give a rejection, read off its
error text: 400 for malformed input, 401 or 403 for a missing session or a
non-owner, 404 for an absent memo or account, 409 for a taken username.  The
wrong-password rejection is in none of the listed classes. -/
def statusFitsClass (error : String) (status : Nat) : Bool :=
  if error ∈ ["BAD USERNAME", "BAD PASSWORD", "PASSWORD IS NOT STRING",
      "CONTENTS IS NOT STRING", "EMPTY CONTENTS", "INVALID ID", "INVALID LISTTYPE"] then
    status == 400
  else if error ∈ ["NOT LOGGED IN", "THERE IS NO LOGIN DATA", "PERMISSION FAILURE"] then
    status == 401 || status == 403
  else if error ∈ ["NO RESOURCE", "THERE IS NO USER"] then status == 404
  else if error ∈ ["USERNAME EXISTS"] then status == 409
  else true

/-- Every rejection among the responses fits the status of its error class. -/
def RejectionFitsClass (r : Response) : Prop :=
  ∀ e c, r.body = .error e c → statusFitsClass e r.status = true

/-- The session of alice. -/
def aliceSession : Session := ⟨some ⟨7, "alice"⟩⟩

/-- The session of bob. -/
def bobSession : Session := ⟨some ⟨8, "bob"⟩⟩

/-! ## Shared lemmas on the collection -/

theorem typeof_eq_string_iff (v : JsVal) : v.typeof = "string" ↔ ∃ s, v = .str s := by
  cases v <;> simp [JsVal.typeof]

theorem findById_eq_some_split {store : Store} {id : ObjectId} {m : Memo}
    (h : findById store id = some m) :
    m._id = id ∧ ∃ pre post, store = pre ++ m :: post ∧ ∀ x ∈ pre, x._id ≠ id := by
  induction store with
  | nil => simp [findById] at h
  | cons a rest ih =>
    by_cases ha : a._id = id
    · have hb : (a._id == id) = true := by simpa using ha
      have : a = m := by simpa [findById, List.find?, hb] using h
      subst this
      exact ⟨ha, [], rest, rfl, by simp⟩
    · have hb : (a._id == id) = false := by simpa using ha
      have h2 : findById rest id = some m := by
        simpa [findById, List.find?, hb] using h
      obtain ⟨hm, pre, post, hst, hpre⟩ := ih h2
      refine ⟨hm, a :: pre, post, by simp [hst], ?_⟩
      intro x hx
      rcases List.mem_cons.1 hx with rfl | hx
      · exact ha
      · exact hpre x hx

theorem update_split (pre post : List Memo) (m memo : Memo) (hid : m._id = memo._id)
    (hpre : ∀ x ∈ pre, x._id ≠ memo._id) :
    update (pre ++ m :: post) memo = pre ++ memo :: post := by
  induction pre with
  | nil => simp [update, hid]
  | cons a pre ih =>
    have ha : a._id ≠ memo._id := hpre a (by simp)
    have := ih (fun x hx => hpre x (by simp [hx]))
    simp [update, ha, this]

theorem findById_split (pre post : List Memo) (m : Memo) (id : ObjectId)
    (hm : m._id = id) (hpre : ∀ x ∈ pre, x._id ≠ id) :
    findById (pre ++ m :: post) id = some m := by
  induction pre with
  | nil => simp [findById, List.find?, hm]
  | cons a pre ih =>
    have ha : (a._id == id) = false := by simpa using hpre a (by simp)
    have := ih (fun x hx => hpre x (by simp [hx]))
    simpa [findById, List.find?, ha] using this

/-! ## Edit: `PUT /api/memo/:id` -/

/-- C1: the answer of an Edit request is the error of the first failing check in
the order ill-formed id (INVALID ID, 1), contents not a string (2), contents
empty (3), no login session (NOT LOGGED IN, 4), no memo with that id
(NO RESOURCE, 5), writer different from the session username
(PERMISSION FAILURE, 6); it is a success exactly when none of the six fails. -/
theorem putMemo_first_failing_check (mongoose : Mongoose) (now : Nat) (id : String)
    (session : Session) (contents : JsVal) (store : Store) :
    (mongoose.isValid id = false →
      (putMemo mongoose now id session contents store).1 = ⟨400, .error "INVALID ID" 1⟩) ∧
    (mongoose.isValid id = true → contents.typeof ≠ "string" →
      (putMemo mongoose now id session contents store).1
        = ⟨400, .error "CONTENTS IS NOT STRING" 2⟩) ∧
    (mongoose.isValid id = true → contents = .str "" →
      (putMemo mongoose now id session contents store).1 = ⟨400, .error "EMPTY CONTENTS" 3⟩) ∧
    (∀ s, mongoose.isValid id = true → contents = .str s → s ≠ "" →
      session.loginInfo = none →
      (putMemo mongoose now id session contents store).1 = ⟨403, .error "NOT LOGGED IN" 4⟩) ∧
    (∀ s l, mongoose.isValid id = true → contents = .str s → s ≠ "" →
      session.loginInfo = some l → findById store (mongoose.objectId id) = none →
      (putMemo mongoose now id session contents store).1 = ⟨404, .error "NO RESOURCE" 5⟩) ∧
    (∀ s l m, mongoose.isValid id = true → contents = .str s → s ≠ "" →
      session.loginInfo = some l → findById store (mongoose.objectId id) = some m →
      m.writer ≠ l.username →
      (putMemo mongoose now id session contents store).1
        = ⟨403, .error "PERMISSION FAILURE" 6⟩) ∧
    ((putMemo mongoose now id session contents store).1.body.isSuccess = true ↔
      (mongoose.isValid id = true ∧ ∃ s l m, contents = .str s ∧ s ≠ "" ∧
        session.loginInfo = some l ∧ findById store (mongoose.objectId id) = some m ∧
        m.writer = l.username)) := by
  refine ⟨?_, ?_, ?_, ?_, ?_, ?_, ?_⟩
  · intro hv
    simp [putMemo, hv]
  · intro hv ht
    cases contents <;> simp [putMemo, hv, JsVal.typeof] at ht ⊢
  · intro hv hc
    simp [putMemo, hv, hc]
  · intro s hv hc hs hl
    simp [putMemo, hv, hc, hs, hl]
  · intro s l hv hc hs hl hf
    simp [putMemo, hv, hc, hs, hl, hf]
  · intro s l m hv hc hs hl hf hw
    simp [putMemo, hv, hc, hs, hl, hf, hw]
  · cases hv : mongoose.isValid id
    · simp [putMemo, hv, Body.isSuccess]
    · cases contents <;> simp [putMemo, hv, Body.isSuccess]
      rename_i s
      by_cases hs : s = ""
      · simp [hs, Body.isSuccess]
      · cases hl : session.loginInfo with
        | none => simp [hs, Body.isSuccess]
        | some l =>
          cases hf : findById store (mongoose.objectId id) with
          | none => simp [hs, Body.isSuccess]
          | some m =>
            by_cases hw : m.writer = l.username
            · simp [hs, hw, Body.isSuccess]
            · simp [hs, hw, Body.isSuccess]

theorem putMemo_success_eq (mongoose : Mongoose) (now : Nat) (id : String)
    (session : Session) (store : Store) (s : String) (l : LoginInfo) (m : Memo)
    (hv : mongoose.isValid id = true) (hs : s ≠ "") (hl : session.loginInfo = some l)
    (hf : findById store (mongoose.objectId id) = some m) (hw : m.writer = l.username) :
    putMemo mongoose now id session (.str s) store
      = (⟨200, .successMemo { m with contents := s, date_edited := some now, is_edited := true }⟩,
         update store { m with contents := s, date_edited := some now, is_edited := true }) := by
  have hw2 : (m.writer != l.username) = false := by simp [hw]
  have hs2 : (s == "") = false := by simpa using hs
  simp only [putMemo, hv, hl, hf, hw2, hs2, Bool.not_true, Bool.false_eq_true, if_false]

/-- C2: an Edit changes the store only when every check passes and the session
username is the memo's writer; then exactly the found memo is replaced, by a
memo with the submitted contents and `is_edited = true` and the same id, writer
and starred list, every other memo staying as it was; an Edit by another
logged-in user leaves the store as it was and, when the request passes the
earlier checks, answers PERMISSION FAILURE. -/
theorem putMemo_store_effect (mongoose : Mongoose) (now : Nat) (id : String)
    (session : Session) (contents : JsVal) (store : Store) :
    ((putMemo mongoose now id session contents store).2 ≠ store →
      (mongoose.isValid id = true ∧ ∃ s l m, contents = .str s ∧ s ≠ "" ∧
        session.loginInfo = some l ∧ findById store (mongoose.objectId id) = some m ∧
        m.writer = l.username)) ∧
    (∀ s l m, mongoose.isValid id = true → contents = .str s → s ≠ "" →
      session.loginInfo = some l → findById store (mongoose.objectId id) = some m →
      m.writer = l.username →
      ∃ pre post m', store = pre ++ m :: post ∧
        (∀ x ∈ pre, x._id ≠ mongoose.objectId id) ∧
        (putMemo mongoose now id session contents store).2 = pre ++ m' :: post ∧
        findById (putMemo mongoose now id session contents store).2 (mongoose.objectId id)
          = some m' ∧
        (putMemo mongoose now id session contents store).1 = ⟨200, .successMemo m'⟩ ∧
        m'.contents = s ∧ m'.is_edited = true ∧ m'._id = m._id ∧ m'.writer = m.writer ∧
        m'.starred = m.starred) ∧
    (∀ l m, session.loginInfo = some l → findById store (mongoose.objectId id) = some m →
      m.writer ≠ l.username →
      (putMemo mongoose now id session contents store).2 = store ∧
      (∀ s, mongoose.isValid id = true → contents = .str s → s ≠ "" →
        (putMemo mongoose now id session contents store).1
          = ⟨403, .error "PERMISSION FAILURE" 6⟩)) := by
  refine ⟨?_, ?_, ?_⟩
  · intro hne
    cases hv : mongoose.isValid id
    · simp [putMemo, hv] at hne
    · cases contents <;> simp [putMemo, hv] at hne ⊢
      rename_i s
      by_cases hs : s = ""
      · simp [hs] at hne
      · cases hl : session.loginInfo with
        | none => simp [hs, hl] at hne
        | some l =>
          cases hf : findById store (mongoose.objectId id) with
          | none => simp [hs, hl, hf] at hne
          | some m =>
            by_cases hw : m.writer = l.username
            · exact ⟨hs, l, rfl, m, rfl, hw⟩
            · simp [hs, hl, hf, hw] at hne
  · intro s l m hv hc hs hl hf hw
    obtain ⟨hid, pre, post, hst, hpre⟩ := findById_eq_some_split hf
    refine ⟨pre, post, { m with contents := s, date_edited := some now, is_edited := true },
      hst, hpre, ?_, ?_, ?_, rfl, rfl, rfl, rfl, rfl⟩
    · have hu := update_split pre post m
        { m with contents := s, date_edited := some now, is_edited := true } rfl
        (by simpa [hid] using hpre)
      rw [hc, putMemo_success_eq mongoose now id session store s l m hv hs hl hf hw]
      show update store _ = _
      rw [hst]
      exact hu
    · have hu := update_split pre post m
        { m with contents := s, date_edited := some now, is_edited := true } rfl
        (by simpa [hid] using hpre)
      rw [hc, putMemo_success_eq mongoose now id session store s l m hv hs hl hf hw]
      show findById (update store _) _ = _
      rw [hst, hu]
      exact findById_split pre post _ _ hid hpre
    · rw [hc, putMemo_success_eq mongoose now id session store s l m hv hs hl hf hw]
  · intro l m hl hf hw
    constructor
    · cases hv : mongoose.isValid id
      · simp [putMemo, hv]
      · cases contents <;> simp [putMemo, hv]
        rename_i s
        by_cases hs : s = ""
        · simp [hs]
        · simp [hs, hl, hf, hw]
    · intro s hv hc hs
      simp [putMemo, hv, hc, hs, hl, hf, hw]

/-! ## Delete: `DELETE /api/memo/:id` -/

/-- C3: the answer of a Delete request is the error of the first failing check
in the order ill-formed id (INVALID ID, 1), no login session (NOT LOGGED IN,
2), memo absent (NO RESOURCE, 3), writer different from the session username
(PERMISSION FAILURE, 4); the memos with that id are removed exactly when no
check fails, and in every case the memos with another id are unchanged. -/
theorem deleteMemo_first_failing_check (mongoose : Mongoose) (id : String)
    (session : Session) (store : Store) :
    (mongoose.isValid id = false →
      deleteMemo mongoose id session store = (⟨400, .error "INVALID ID" 1⟩, store)) ∧
    (mongoose.isValid id = true → session.loginInfo = none →
      deleteMemo mongoose id session store = (⟨403, .error "NOT LOGGED IN" 2⟩, store)) ∧
    (∀ l, mongoose.isValid id = true → session.loginInfo = some l →
      findById store (mongoose.objectId id) = none →
      deleteMemo mongoose id session store = (⟨404, .error "NO RESOURCE" 3⟩, store)) ∧
    (∀ l m, mongoose.isValid id = true → session.loginInfo = some l →
      findById store (mongoose.objectId id) = some m → m.writer ≠ l.username →
      deleteMemo mongoose id session store = (⟨403, .error "PERMISSION FAILURE" 4⟩, store)) ∧
    (∀ l m, mongoose.isValid id = true → session.loginInfo = some l →
      findById store (mongoose.objectId id) = some m → m.writer = l.username →
      deleteMemo mongoose id session store
        = (⟨200, .success⟩, store.filter (fun x => x._id != mongoose.objectId id))) ∧
    ((deleteMemo mongoose id session store).2.filter (fun x => x._id != mongoose.objectId id)
      = store.filter (fun x => x._id != mongoose.objectId id)) := by
  refine ⟨?_, ?_, ?_, ?_, ?_, ?_⟩
  · intro hv
    simp [deleteMemo, hv]
  · intro hv hl
    simp [deleteMemo, hv, hl]
  · intro l hv hl hf
    simp [deleteMemo, hv, hl, hf]
  · intro l m hv hl hf hw
    simp [deleteMemo, hv, hl, hf, hw]
  · intro l m hv hl hf hw
    simp [deleteMemo, hv, hl, hf, hw, remove]
  · cases hv : mongoose.isValid id
    · simp [deleteMemo, hv]
    · cases hl : session.loginInfo with
      | none => simp [deleteMemo, hv, hl]
      | some l =>
        cases hf : findById store (mongoose.objectId id) with
        | none => simp [deleteMemo, hv, hl, hf]
        | some m =>
          by_cases hw : m.writer = l.username
          · simp [deleteMemo, hv, hl, hf, hw, remove]
          · simp [deleteMemo, hv, hl, hf, hw]

/-! ## Create: `POST /api/memo` -/

/-- C4: the answer of a Create request is the error of the first failing check
in the order no login session (NOT LOGGED IN, 1), contents not a string (2),
contents empty (3); when none fails exactly one memo is inserted, with the
session's username as writer and the submitted string as contents, and when one
fails the store is unchanged. -/
theorem postMemo_checks_and_insert (newId : ObjectId) (now : Nat) (session : Session)
    (contents : JsVal) (store : Store) :
    (session.loginInfo = none →
      postMemo newId now session contents store = (⟨403, .error "NOT LOGGED IN" 1⟩, store)) ∧
    (∀ l, session.loginInfo = some l → contents.typeof ≠ "string" →
      postMemo newId now session contents store
        = (⟨400, .error "CONTENTS IS NOT STRING" 2⟩, store)) ∧
    (∀ l, session.loginInfo = some l → contents = .str "" →
      postMemo newId now session contents store = (⟨400, .error "EMPTY CONTENTS" 3⟩, store)) ∧
    (∀ l s, session.loginInfo = some l → contents = .str s → s ≠ "" →
      ∃ m, postMemo newId now session contents store = (⟨200, .success⟩, store ++ [m]) ∧
        m.writer = l.username ∧ m.contents = s) := by
  refine ⟨?_, ?_, ?_, ?_⟩
  · intro hl
    simp [postMemo, hl]
  · intro l hl ht
    cases contents <;> simp [postMemo, hl, JsVal.typeof] at ht ⊢
  · intro l hl hc
    simp [postMemo, hl, hc]
  · intro l s hl hc hs
    exact ⟨newMemo newId now l.username s, by simp [postMemo, hl, hc, hs, insert], rfl, rfl⟩

/-! ## ToggleStar: `POST /api/memo/star/:id` -/

theorem indexOfFrom_of_not_mem (xs : List String) (x : String) (i : Nat) (h : x ∉ xs) :
    indexOfFrom xs x i = -1 := by
  induction xs generalizing i with
  | nil => rfl
  | cons y ys ih =>
    have hy : (y == x) = false := by
      simpa using fun e : y = x => h (by simp [e])
    have hys : x ∉ ys := fun hm => h (by simp [hm])
    simp [indexOfFrom, hy, ih (i + 1) hys]

theorem indexOfFrom_of_mem (xs : List String) (x : String) (i : Nat) (h : x ∈ xs) :
    ∃ k : Nat, indexOfFrom xs x i = ((i + k : Nat) : Int) ∧ k < xs.length ∧
      xs.take k ++ xs.drop (k + 1) = xs.erase x := by
  induction xs generalizing i with
  | nil => simp at h
  | cons y ys ih =>
    by_cases hy : y = x
    · refine ⟨0, ?_, by simp, ?_⟩
      · simp [indexOfFrom, hy]
      · simp [hy]
    · have hys : x ∈ ys := by
        rcases List.mem_cons.1 h with e | hm
        · exact absurd e.symm hy
        · exact hm
      obtain ⟨k, hk, hlt, herase⟩ := ih (i + 1) hys
      refine ⟨k + 1, ?_, by simpa using hlt, ?_⟩
      · have hb : (y == x) = false := by simpa using hy
        simp only [indexOfFrom, hb, Bool.false_eq_true, if_false, hk]
        congr 1
        omega
      · have hne : (y == x) = false := by simpa using hy
        simp [List.erase_cons, hne, herase]

theorem splice_one_of_lt (xs : List String) (k : Nat) (hk : k < xs.length) :
    splice xs (k : Int) 1 = xs.take k ++ xs.drop (k + 1) := by
  have h1 : ¬ ((k : Int) < 0) := by omega
  have h2 : min k xs.length = k := by omega
  simp [splice, h1, h2]

theorem indexOf_of_not_mem (xs : List String) (x : String) (h : x ∉ xs) :
    indexOf xs x = -1 :=
  indexOfFrom_of_not_mem xs x 0 h

theorem indexOf_of_mem (xs : List String) (x : String) (h : x ∈ xs) :
    indexOf xs x ≠ -1 ∧ splice xs (indexOf xs x) 1 = xs.erase x := by
  obtain ⟨k, hk, hlt, herase⟩ := indexOfFrom_of_mem xs x 0 h
  have hk2 : indexOf xs x = (k : Int) := by simpa [indexOf] using hk
  refine ⟨by rw [hk2]; omega, ?_⟩
  rw [hk2, splice_one_of_lt xs k hlt, herase]

theorem postStar_success_eq (mongoose : Mongoose) (id : String) (session : Session)
    (store : Store) (l : LoginInfo) (m : Memo)
    (hv : mongoose.isValid id = true) (hl : session.loginInfo = some l)
    (hf : findById store (mongoose.objectId id) = some m) :
    postStar mongoose id session store
      = (⟨200, .successStar (decide (l.username ∉ m.starred))
            { m with starred := toggled m.starred l.username }⟩,
         update store { m with starred := toggled m.starred l.username }) := by
  by_cases hu : l.username ∈ m.starred
  · obtain ⟨hne, hsp⟩ := indexOf_of_mem m.starred l.username hu
    have hb : (indexOf m.starred l.username != -1) = true := by simpa using hne
    simp only [postStar, hv, hl, hf, hb, toggled, hu, hsp, Bool.not_true,
      Bool.false_eq_true, if_false, if_true, not_true_eq_false, decide_False]
  · have hi := indexOf_of_not_mem m.starred l.username hu
    simp [postStar, hv, hl, hf, hi, toggled, hu]

theorem findById_update (store : Store) (id : ObjectId) (m m' : Memo)
    (hf : findById store id = some m) (hid : m'._id = m._id) :
    findById (update store m') id = some m' := by
  obtain ⟨hm, pre, post, hst, hpre⟩ := findById_eq_some_split hf
  rw [hst, update_split pre post m m' hid.symm (by simpa [hid, hm] using hpre)]
  exact findById_split pre post m' id (by rw [hid, hm]) hpre

theorem mem_update (store : Store) (memo x : Memo) (hx : x ∈ update store memo) :
    x ∈ store ∨ x = memo := by
  induction store with
  | nil => simp [update] at hx
  | cons a rest ih =>
    by_cases ha : a._id = memo._id
    · have hb : (a._id == memo._id) = true := by simpa using ha
      simp only [update, hb, if_true, List.mem_cons] at hx
      rcases hx with rfl | hx
      · exact Or.inr rfl
      · exact Or.inl (by simp [hx])
    · have hb : (a._id == memo._id) = false := by simpa using ha
      simp only [update, hb, Bool.false_eq_true, if_false, List.mem_cons] at hx
      rcases hx with rfl | hx
      · exact Or.inl (by simp)
      · rcases ih hx with h | h
        · exact Or.inl (by simp [h])
        · exact Or.inr h

theorem toggled_nodup (xs : List String) (u : String) (h : xs.Nodup) :
    (toggled xs u).Nodup := by
  by_cases hu : u ∈ xs
  · simpa [toggled, hu] using h.erase u
  · simp [toggled, hu, List.nodup_append, h]

theorem mem_toggled_self (xs : List String) (u : String) (h : xs.Nodup) :
    u ∈ toggled xs u ↔ u ∉ xs := by
  by_cases hu : u ∈ xs
  · simp [toggled, hu, h.mem_erase_iff]
  · simp [toggled, hu]

theorem mem_toggled_of_ne (xs : List String) (u v : String) (hv : v ≠ u) :
    v ∈ toggled xs u ↔ v ∈ xs := by
  by_cases hu : u ∈ xs
  · simp [toggled, hu, List.mem_erase_of_ne hv]
  · simp [toggled, hu, hv]

theorem filter_ne_toggled (xs : List String) (u : String) (h : xs.Nodup) :
    (toggled xs u).filter (fun v => v != u) = xs.filter (fun v => v != u) := by
  by_cases hu : u ∈ xs
  · simp only [toggled, hu, if_true]
    rw [h.erase_eq_filter]
    simp [List.filter_filter]
  · simp [toggled, hu]

/-- C7: on an existing memo whose starred list has no repeated username, a
ToggleStar by a logged-in user `u` (the writer included) succeeds, with
`has_starred = true` exactly when `u` was not starred before; afterwards `u` is
in the stored starred list exactly when `has_starred` is true, a newly added `u`
is the last element, and the other usernames keep membership and order. -/
theorem postStar_toggles (mongoose : Mongoose) (id : String) (session : Session)
    (store : Store) (l : LoginInfo) (m : Memo)
    (hv : mongoose.isValid id = true) (hl : session.loginInfo = some l)
    (hf : findById store (mongoose.objectId id) = some m) (hnd : m.starred.Nodup) :
    ∃ b m', (postStar mongoose id session store).1 = ⟨200, .successStar b m'⟩ ∧
      findById (postStar mongoose id session store).2 (mongoose.objectId id) = some m' ∧
      (b = true ↔ l.username ∉ m.starred) ∧
      (l.username ∈ m'.starred ↔ b = true) ∧
      (l.username ∉ m.starred → m'.starred = m.starred ++ [l.username]) ∧
      (∀ v, v ≠ l.username → (v ∈ m'.starred ↔ v ∈ m.starred)) ∧
      m'.starred.filter (fun v => v != l.username)
        = m.starred.filter (fun v => v != l.username) := by
  refine ⟨decide (l.username ∉ m.starred), { m with starred := toggled m.starred l.username },
    ?_, ?_, ?_, ?_, ?_, ?_, ?_⟩
  · rw [postStar_success_eq mongoose id session store l m hv hl hf]
  · rw [postStar_success_eq mongoose id session store l m hv hl hf]
    exact findById_update store _ m _ hf rfl
  · simp
  · simpa using mem_toggled_self m.starred l.username hnd
  · intro hu
    simp [toggled, hu]
  · intro v hne
    exact mem_toggled_of_ne m.starred l.username v hne
  · exact filter_ne_toggled m.starred l.username hnd

/-- C7 at a concrete request: alice stars memo B, which nobody had starred. -/
theorem postStar_toggles_witness :
    ∃ b m', (postStar hexMongoose idB aliceSession storeAB).1 = ⟨200, .successStar b m'⟩ ∧
      findById (postStar hexMongoose idB aliceSession storeAB).2 (hexMongoose.objectId idB)
        = some m' ∧
      (b = true ↔ "alice" ∉ memoB.starred) ∧
      ("alice" ∈ m'.starred ↔ b = true) ∧
      ("alice" ∉ memoB.starred → m'.starred = memoB.starred ++ ["alice"]) ∧
      (∀ v, v ≠ "alice" → (v ∈ m'.starred ↔ v ∈ memoB.starred)) ∧
      m'.starred.filter (fun v => v != "alice")
        = memoB.starred.filter (fun v => v != "alice") :=
  postStar_toggles hexMongoose idB aliceSession storeAB ⟨7, "alice"⟩ memoB
    (by decide) rfl (by decide) (by decide)

/-- C6: on a memo whose starred list has no repeated username, two ToggleStar
calls in sequence by the same logged-in user both succeed and leave a starred
list with the same members as before the two calls, while each single call
changes the membership. -/
theorem postStar_twice_restores_membership (mongoose : Mongoose) (id : String)
    (session : Session) (store : Store) (l : LoginInfo) (m : Memo)
    (hv : mongoose.isValid id = true) (hl : session.loginInfo = some l)
    (hf : findById store (mongoose.objectId id) = some m) (hnd : m.starred.Nodup) :
    ∃ m1 m2,
      findById (postStar mongoose id session store).2 (mongoose.objectId id) = some m1 ∧
      findById (postStar mongoose id session (postStar mongoose id session store).2).2
        (mongoose.objectId id) = some m2 ∧
      (postStar mongoose id session store).1.body.isSuccess = true ∧
      (postStar mongoose id session (postStar mongoose id session store).2).1.body.isSuccess
        = true ∧
      (∀ v, v ∈ m2.starred ↔ v ∈ m.starred) ∧
      ¬ (∀ v, v ∈ m1.starred ↔ v ∈ m.starred) ∧
      ¬ (∀ v, v ∈ m2.starred ↔ v ∈ m1.starred) := by
  have h1 := postStar_success_eq mongoose id session store l m hv hl hf
  have hf1 : findById (update store { m with starred := toggled m.starred l.username })
      (mongoose.objectId id) = some { m with starred := toggled m.starred l.username } :=
    findById_update store _ m _ hf rfl
  have h2 := postStar_success_eq mongoose id session
    (update store { m with starred := toggled m.starred l.username }) l
    { m with starred := toggled m.starred l.username } hv hl hf1
  have hnd1 : (toggled m.starred l.username).Nodup := toggled_nodup _ _ hnd
  refine ⟨{ m with starred := toggled m.starred l.username },
    { m with starred := toggled (toggled m.starred l.username) l.username },
    ?_, ?_, ?_, ?_, ?_, ?_, ?_⟩
  · rw [h1]
    exact hf1
  · rw [h1]
    show findById (postStar mongoose id session (update store _)).2 _ = _
    rw [h2]
    exact findById_update _ _ _ _ hf1 rfl
  · rw [h1]
    rfl
  · rw [h1]
    show (postStar mongoose id session (update store _)).1.body.isSuccess = true
    rw [h2]
    rfl
  · intro v
    show v ∈ toggled (toggled m.starred l.username) l.username ↔ v ∈ m.starred
    by_cases hvu : v = l.username
    · subst hvu
      rw [mem_toggled_self _ _ hnd1, mem_toggled_self _ _ hnd]
      exact not_not
    · rw [mem_toggled_of_ne _ _ _ hvu, mem_toggled_of_ne _ _ _ hvu]
  · intro hall
    have h := (hall l.username).symm.trans (mem_toggled_self m.starred l.username hnd)
    exact (iff_not_self h)
  · intro hall
    have h := (hall l.username).symm.trans
      (mem_toggled_self (toggled m.starred l.username) l.username hnd1)
    exact (iff_not_self h)

/-- C6 at a concrete request: bob toggles his star on memo A twice. -/
theorem postStar_twice_restores_membership_witness :
    ∃ m1 m2,
      findById (postStar hexMongoose idA bobSession storeAB).2 (hexMongoose.objectId idA)
        = some m1 ∧
      findById (postStar hexMongoose idA bobSession
        (postStar hexMongoose idA bobSession storeAB).2).2 (hexMongoose.objectId idA)
        = some m2 ∧
      (postStar hexMongoose idA bobSession storeAB).1.body.isSuccess = true ∧
      (postStar hexMongoose idA bobSession
        (postStar hexMongoose idA bobSession storeAB).2).1.body.isSuccess = true ∧
      (∀ v, v ∈ m2.starred ↔ v ∈ memoA.starred) ∧
      ¬ (∀ v, v ∈ m1.starred ↔ v ∈ memoA.starred) ∧
      ¬ (∀ v, v ∈ m2.starred ↔ v ∈ m1.starred) :=
  postStar_twice_restores_membership hexMongoose idA bobSession storeAB ⟨8, "bob"⟩ memoA
    (by decide) rfl (by decide) (by decide)

/-! ## The invariant of the collection -/

theorem storeInvariant_update (store : Store) (memo : Memo) (h : StoreInvariant store)
    (hm : memo.contents ≠ "" ∧ memo.starred.Nodup) : StoreInvariant (update store memo) := by
  intro x hx
  rcases mem_update store memo x hx with hx | rfl
  · exact h x hx
  · exact hm

/-- C5: if every stored memo has non-empty contents and a starred list without
a repeated username, the same holds of the store after any Create, Edit, Delete
or ToggleStar request, whatever the session and the input. -/
theorem storeInvariant_preserved (mongoose : Mongoose) (newId : ObjectId) (now : Nat)
    (id : String) (session : Session) (contents : JsVal) (store : Store)
    (h : StoreInvariant store) :
    StoreInvariant (postMemo newId now session contents store).2 ∧
    StoreInvariant (putMemo mongoose now id session contents store).2 ∧
    StoreInvariant (deleteMemo mongoose id session store).2 ∧
    StoreInvariant (postStar mongoose id session store).2 := by
  refine ⟨?_, ?_, ?_, ?_⟩
  · cases hl : session.loginInfo with
    | none => simpa [postMemo, hl] using h
    | some l =>
      cases contents <;> try (simpa [postMemo, hl] using h)
      rename_i s
      by_cases hs : s = ""
      · simpa [postMemo, hl, hs] using h
      · simp only [postMemo, hl]
        have hb : (s == "") = false := by simpa using hs
        simp only [hb, Bool.false_eq_true, if_false, insert]
        intro x hx
        rcases List.mem_append.1 hx with hx | hx
        · exact h x hx
        · have : x = newMemo newId now l.username s := by simpa using hx
          subst this
          exact ⟨hs, by simp [newMemo]⟩
  · cases hv : mongoose.isValid id
    · simpa [putMemo, hv] using h
    · cases contents <;> try (simpa [putMemo, hv] using h)
      rename_i s
      by_cases hs : s = ""
      · simpa [putMemo, hv, hs] using h
      · cases hl : session.loginInfo with
        | none => simpa [putMemo, hv, hs, hl] using h
        | some l =>
          cases hf : findById store (mongoose.objectId id) with
          | none => simpa [putMemo, hv, hs, hl, hf] using h
          | some m =>
            by_cases hw : m.writer = l.username
            · rw [putMemo_success_eq mongoose now id session store s l m hv hs hl hf hw]
              have hm : m ∈ store := by
                obtain ⟨_, pre, post, hst, _⟩ := findById_eq_some_split hf
                simp [hst]
              exact storeInvariant_update store _ h ⟨hs, (h m hm).2⟩
            · simpa [putMemo, hv, hs, hl, hf, hw] using h
  · cases hv : mongoose.isValid id
    · simpa [deleteMemo, hv] using h
    · cases hl : session.loginInfo with
      | none => simpa [deleteMemo, hv, hl] using h
      | some l =>
        cases hf : findById store (mongoose.objectId id) with
        | none => simpa [deleteMemo, hv, hl, hf] using h
        | some m =>
          by_cases hw : m.writer = l.username
          · simp only [deleteMemo, hv, hl, hf, hw, remove, bne_self_eq_false,
              Bool.not_true, Bool.false_eq_true, if_false]
            intro x hx
            exact h x (List.mem_of_mem_filter hx)
          · simpa [deleteMemo, hv, hl, hf, hw] using h
  · cases hv : mongoose.isValid id
    · simpa [postStar, hv] using h
    · cases hl : session.loginInfo with
      | none => simpa [postStar, hv, hl] using h
      | some l =>
        cases hf : findById store (mongoose.objectId id) with
        | none => simpa [postStar, hv, hl, hf] using h
        | some m =>
          rw [postStar_success_eq mongoose id session store l m hv hl hf]
          have hm : m ∈ store := by
            obtain ⟨_, pre, post, hst, _⟩ := findById_eq_some_split hf
            simp [hst]
          exact storeInvariant_update store _ h
            ⟨(h m hm).1, toggled_nodup _ _ (h m hm).2⟩

theorem storeInvariant_storeAB : StoreInvariant storeAB := by
  intro m hm
  have : m = memoA ∨ m = memoB := by simpa [storeAB] using hm
  rcases this with rfl | rfl <;> exact ⟨by decide, by decide⟩

/-- C5 at concrete requests of alice on the two-memo store. -/
theorem storeInvariant_preserved_witness :
    StoreInvariant (postMemo 99 30 aliceSession (.str "third") storeAB).2 ∧
    StoreInvariant (putMemo hexMongoose 30 idA aliceSession (.str "third") storeAB).2 ∧
    StoreInvariant (deleteMemo hexMongoose idA aliceSession storeAB).2 ∧
    StoreInvariant (postStar hexMongoose idA aliceSession storeAB).2 :=
  storeInvariant_preserved hexMongoose 99 30 idA aliceSession (.str "third") storeAB
    storeInvariant_storeAB

/-! ## The list routes -/

theorem sortByIdDesc_perm (l : List Memo) : (sortByIdDesc l).Perm l :=
  List.perm_insertionSort _ l

theorem sortByIdDesc_sorted (l : List Memo) :
    (sortByIdDesc l).Pairwise (fun a b => b._id ≤ a._id) :=
  haveI : IsTotal Memo (fun a b => b._id ≤ a._id) := ⟨fun _ _ => Nat.le_total _ _⟩
  haveI : IsTrans Memo (fun a b => b._id ≤ a._id) := ⟨fun _ _ _ h1 h2 => Nat.le_trans h2 h1⟩
  List.sorted_insertionSort _ l

theorem sortByIdDesc_strict (l : List Memo) (hnd : DistinctIds l) :
    StrictlyDescending (sortByIdDesc l) := by
  have hnd2 : ((sortByIdDesc l).map (fun m => m._id)).Nodup :=
    (((sortByIdDesc_perm l).map _).nodup_iff).2 hnd
  have hne : (sortByIdDesc l).Pairwise (fun a b => a._id ≠ b._id) :=
    List.pairwise_map.1 hnd2
  exact ((sortByIdDesc_sorted l).and hne).imp
    (fun h => Nat.lt_of_le_of_ne h.1 (fun e => h.2 e.symm))

theorem distinctIds_filter (l : List Memo) (p : Memo → Bool) (hnd : DistinctIds l) :
    DistinctIds (l.filter p) :=
  List.Nodup.sublist ((List.filter_sublist l).map _) hnd

/-- What `.sort({_id: -1}).limit(6)` returns on a list with distinct identifiers:
`min 6 n` memos of the list, strictly descending, and every memo left out has a
smaller identifier than every memo returned. -/
theorem take_six_sorted (l : List Memo) (hnd : DistinctIds l) :
    ((sortByIdDesc l).take 6).length = min 6 l.length ∧
    StrictlyDescending ((sortByIdDesc l).take 6) ∧
    (∀ m ∈ (sortByIdDesc l).take 6, m ∈ l) ∧
    (∀ m ∈ l, m ∉ (sortByIdDesc l).take 6 → ∀ r ∈ (sortByIdDesc l).take 6, m._id < r._id) := by
  have hstrict := sortByIdDesc_strict l hnd
  refine ⟨?_, ?_, ?_, ?_⟩
  · rw [List.length_take, (sortByIdDesc_perm l).length_eq]
  · exact List.Pairwise.sublist (List.take_sublist 6 _) hstrict
  · intro m hm
    exact (sortByIdDesc_perm l).mem_iff.1 (List.mem_of_mem_take hm)
  · intro m hm hnot r hr
    have hsplit : (sortByIdDesc l).take 6 ++ (sortByIdDesc l).drop 6 = sortByIdDesc l :=
      List.take_append_drop 6 _
    have hm2 : m ∈ (sortByIdDesc l).take 6 ++ (sortByIdDesc l).drop 6 := by
      rw [hsplit]
      exact (sortByIdDesc_perm l).mem_iff.2 hm
    have hmd : m ∈ (sortByIdDesc l).drop 6 := by
      rcases List.mem_append.1 hm2 with h | h
      · exact absurd h hnot
      · exact h
    have hp : ((sortByIdDesc l).take 6 ++ (sortByIdDesc l).drop 6).Pairwise
        (fun a b => b._id < a._id) := by
      rw [hsplit]
      exact hstrict
    exact (List.pairwise_append.1 hp).2.2 r hr m hmd

theorem getMemoPage_old_eq (mongoose : Mongoose) (C : String) (store : Store)
    (hv : mongoose.isValid C = true) :
    getMemoPage mongoose "old" C store
      = ⟨200, .memos ((sortByIdDesc
          (store.filter (fun m => decide (m._id < mongoose.objectId C)))).take 6)⟩ := by
  simp [getMemoPage, hv]

theorem getMemoPage_new_eq (mongoose : Mongoose) (C : String) (store : Store)
    (hv : mongoose.isValid C = true) :
    getMemoPage mongoose "new" C store
      = ⟨200, .memos ((sortByIdDesc
          (store.filter (fun m => decide (m._id > mongoose.objectId C)))).take 6)⟩ := by
  simp [getMemoPage, hv]

/-- C8: on a store with distinct identifiers ListGlobal returns `min 6 n` memos
of the store, strictly descending by identifier, and they are the memos with
the largest identifiers: every stored memo left out has a smaller identifier
than every memo returned. -/
theorem getMemo_newest_six (store : Store) (hnd : DistinctIds store) :
    ∃ page, getMemo store = ⟨200, .memos page⟩ ∧
      page.length = min 6 store.length ∧
      StrictlyDescending page ∧
      (∀ m ∈ page, m ∈ store) ∧
      (∀ m ∈ store, m ∉ page → ∀ r ∈ page, m._id < r._id) :=
  ⟨(sortByIdDesc store).take 6, rfl, take_six_sorted store hnd⟩

/-- C8 on the two-memo store: both memos come back, memo B first. -/
theorem getMemo_newest_six_witness :
    DistinctIds storeAB ∧ getMemo storeAB = ⟨200, .memos [memoB, memoA]⟩ ∧
    ∃ page, getMemo storeAB = ⟨200, .memos page⟩ ∧
      page.length = min 6 storeAB.length ∧
      StrictlyDescending page ∧
      (∀ m ∈ page, m ∈ storeAB) ∧
      (∀ m ∈ storeAB, m ∉ page → ∀ r ∈ page, m._id < r._id) :=
  ⟨by decide, by decide, getMemo_newest_six storeAB (by decide)⟩

theorem memoList_getMemoPage_old (mongoose : Mongoose) (C : String) (store : Store)
    (hv : mongoose.isValid C = true) :
    (getMemoPage mongoose "old" C store).memoList
      = (sortByIdDesc (store.filter (fun m => decide (m._id < mongoose.objectId C)))).take 6 := by
  rw [getMemoPage_old_eq mongoose C store hv]
  rfl

theorem mem_old_page_lt (mongoose : Mongoose) (C : String) (store : Store)
    (hv : mongoose.isValid C = true) (m : Memo)
    (hm : m ∈ (getMemoPage mongoose "old" C store).memoList) :
    m ∈ store ∧ m._id < mongoose.objectId C := by
  rw [memoList_getMemoPage_old mongoose C store hv] at hm
  have h := (sortByIdDesc_perm _).mem_iff.1 (List.mem_of_mem_take hm)
  simpa using h

/-- Along a chain of cursors, each the smallest identifier of the page before,
every later cursor is below every identifier of the first page. -/
theorem later_cursor_le_page (mongoose : Mongoose) (store : Store) (c : String)
    (rest : List String) (hv : ∀ x ∈ c :: rest, mongoose.isValid x = true)
    (hchain : List.Chain
      (fun a b => IsSmallestId (getMemoPage mongoose "old" a store).memoList
        (mongoose.objectId b)) c rest) :
    ∀ c' ∈ rest, mongoose.objectId c' < mongoose.objectId c ∧
      ∀ a ∈ (getMemoPage mongoose "old" c store).memoList, mongoose.objectId c' ≤ a._id := by
  induction rest generalizing c with
  | nil => simp
  | cons c1 rest ih =>
    rcases List.chain_cons.1 hchain with ⟨hstep, htail⟩
    obtain ⟨⟨m0, hm0, hid0⟩, hmin⟩ := hstep
    have hc1 : mongoose.objectId c1 < mongoose.objectId c := by
      rw [← hid0]
      exact (mem_old_page_lt mongoose c store (hv c (by simp)) m0 hm0).2
    intro c' hc'
    rcases List.mem_cons.1 hc' with rfl | hc'
    · exact ⟨hc1, hmin⟩
    · have h := ih c1 (fun x hx => hv x (by simp [List.mem_cons.1 hx])) htail c' hc'
      exact ⟨Nat.lt_trans h.1 hc1, fun a ha => Nat.le_trans (Nat.le_of_lt h.1) (hmin a ha)⟩

/-- C9: on a store with distinct identifiers the old page of a well-formed
cursor `C` has at most 6 memos of the store, each with an identifier below `C`,
strictly descending; and when each next cursor is the smallest identifier of
the page just returned, no two pages of the traversal share an identifier. -/
theorem getMemoPage_old_pages (mongoose : Mongoose) (store : Store)
    (hnd : DistinctIds store) :
    (∀ C, mongoose.isValid C = true →
      ∃ page, getMemoPage mongoose "old" C store = ⟨200, .memos page⟩ ∧
        page.length ≤ 6 ∧
        (∀ m ∈ page, m ∈ store ∧ m._id < mongoose.objectId C) ∧
        StrictlyDescending page) ∧
    (∀ cursors : List String, (∀ c ∈ cursors, mongoose.isValid c = true) →
      List.Chain' (fun a b => IsSmallestId (getMemoPage mongoose "old" a store).memoList
        (mongoose.objectId b)) cursors →
      List.Pairwise DisjointIds
        (cursors.map (fun c => (getMemoPage mongoose "old" c store).memoList))) := by
  constructor
  · intro C hv
    have h := take_six_sorted (store.filter (fun m => decide (m._id < mongoose.objectId C)))
      (distinctIds_filter store _ hnd)
    refine ⟨_, getMemoPage_old_eq mongoose C store hv, ?_, ?_, h.2.1⟩
    · rw [h.1]
      exact Nat.min_le_left _ _
    · intro m hm
      simpa using h.2.2.1 m hm
  · intro cursors
    induction cursors with
    | nil => intro _ _; simp
    | cons c rest ih =>
      intro hv hchain
      have hchain2 : List.Chain _ c rest := hchain
      rw [List.map_cons, List.pairwise_cons]
      constructor
      · intro q hq
        obtain ⟨c', hc', rfl⟩ := List.mem_map.1 hq
        have h := later_cursor_le_page mongoose store c rest hv hchain2 c' hc'
        intro a ha b hb
        have hb2 := (mem_old_page_lt mongoose c' store (hv c' (by simp [hc'])) b hb).2
        have ha2 := h.2 a ha
        intro e
        rw [e] at ha2
        exact absurd (Nat.lt_of_lt_of_le hb2 ha2) (Nat.lt_irrefl _)
      · exact ih (fun x hx => hv x (by simp [hx])) (List.Chain'.tail hchain)

/-- C9 on the eight-memo store: the traversal from cursor nine returns memos 8
to 3, then memos 2 and 1, then nothing, and the three pages share no
identifier. -/
theorem getMemoPage_old_pages_witness :
    DistinctIds storeEight ∧
    (getMemoPage hexMongoose "old" idNine storeEight).memoList
      = [numberedMemo 8, numberedMemo 7, numberedMemo 6, numberedMemo 5, numberedMemo 4,
         numberedMemo 3] ∧
    (getMemoPage hexMongoose "old" idThree storeEight).memoList
      = [numberedMemo 2, numberedMemo 1] ∧
    (getMemoPage hexMongoose "old" idA storeEight).memoList = [] ∧
    List.Pairwise DisjointIds
      ([idNine, idThree, idA].map
        (fun c => (getMemoPage hexMongoose "old" c storeEight).memoList)) :=
  ⟨by decide, by decide, by decide, by decide,
    (getMemoPage_old_pages hexMongoose storeEight (by decide)).2 [idNine, idThree, idA]
      (by decide)
      (List.chain'_cons.2 ⟨by decide, List.chain'_cons.2 ⟨by decide, List.chain'_singleton _⟩⟩)⟩

/-- C10: on a store with distinct identifiers the new page of a well-formed
cursor `C` has at most 6 memos of the store, each with an identifier above `C`,
and it is strictly descending by identifier (newest first), as are the old page
of the same cursor and the list of ListGlobal. -/
theorem getMemoPage_new_page (mongoose : Mongoose) (store : Store) (C : String)
    (hnd : DistinctIds store) (hv : mongoose.isValid C = true) :
    (∃ page, getMemoPage mongoose "new" C store = ⟨200, .memos page⟩ ∧
      page.length ≤ 6 ∧
      (∀ m ∈ page, m ∈ store ∧ mongoose.objectId C < m._id) ∧
      StrictlyDescending page) ∧
    StrictlyDescending (getMemoPage mongoose "old" C store).memoList ∧
    StrictlyDescending (getMemo store).memoList := by
  refine ⟨?_, ?_, ?_⟩
  · have h := take_six_sorted (store.filter (fun m => decide (m._id > mongoose.objectId C)))
      (distinctIds_filter store _ hnd)
    refine ⟨_, getMemoPage_new_eq mongoose C store hv, ?_, ?_, h.2.1⟩
    · rw [h.1]
      exact Nat.min_le_left _ _
    · intro m hm
      simpa using h.2.2.1 m hm
  · rw [memoList_getMemoPage_old mongoose C store hv]
    exact (take_six_sorted _ (distinctIds_filter store _ hnd)).2.1
  · exact (take_six_sorted store hnd).2.1

/-- C10 on the eight-memo store: the new page of cursor zero is memos 8 to 3,
newest first. -/
theorem getMemoPage_new_page_witness :
    getMemoPage hexMongoose "new" idZero storeEight
      = ⟨200, .memos [numberedMemo 8, numberedMemo 7, numberedMemo 6, numberedMemo 5,
          numberedMemo 4, numberedMemo 3]⟩ ∧
    ((∃ page, getMemoPage hexMongoose "new" idZero storeEight = ⟨200, .memos page⟩ ∧
      page.length ≤ 6 ∧
      (∀ m ∈ page, m ∈ storeEight ∧ hexMongoose.objectId idZero < m._id) ∧
      StrictlyDescending page) ∧
    StrictlyDescending (getMemoPage hexMongoose "old" idZero storeEight).memoList ∧
    StrictlyDescending (getMemo storeEight).memoList) :=
  ⟨by decide, getMemoPage_new_page hexMongoose storeEight idZero (by decide) (by decide)⟩

/-! ## The checks at concrete requests -/

/-- C1 at concrete requests on the two-memo store: one request for each of the
six errors and one that succeeds. -/
theorem putMemo_first_failing_check_witness :
    (putMemo hexMongoose 30 "xyz" ⟨none⟩ .undefined storeAB).1
      = ⟨400, .error "INVALID ID" 1⟩ ∧
    (putMemo hexMongoose 30 idA ⟨none⟩ (.num 5) storeAB).1
      = ⟨400, .error "CONTENTS IS NOT STRING" 2⟩ ∧
    (putMemo hexMongoose 30 idA ⟨none⟩ (.str "") storeAB).1
      = ⟨400, .error "EMPTY CONTENTS" 3⟩ ∧
    (putMemo hexMongoose 30 idNine ⟨none⟩ (.str "x") storeAB).1
      = ⟨403, .error "NOT LOGGED IN" 4⟩ ∧
    (putMemo hexMongoose 30 idNine bobSession (.str "x") storeAB).1
      = ⟨404, .error "NO RESOURCE" 5⟩ ∧
    (putMemo hexMongoose 30 idA bobSession (.str "x") storeAB).1
      = ⟨403, .error "PERMISSION FAILURE" 6⟩ ∧
    (putMemo hexMongoose 30 idA aliceSession (.str "x") storeAB).1.body.isSuccess = true :=
  ⟨(putMemo_first_failing_check hexMongoose 30 "xyz" ⟨none⟩ .undefined storeAB).1 (by decide),
   (putMemo_first_failing_check hexMongoose 30 idA ⟨none⟩ (.num 5) storeAB).2.1
     (by decide) (by decide),
   (putMemo_first_failing_check hexMongoose 30 idA ⟨none⟩ (.str "") storeAB).2.2.1
     (by decide) rfl,
   (putMemo_first_failing_check hexMongoose 30 idNine ⟨none⟩ (.str "x") storeAB).2.2.2.1
     "x" (by decide) rfl (by decide) rfl,
   (putMemo_first_failing_check hexMongoose 30 idNine bobSession (.str "x") storeAB).2.2.2.2.1
     "x" ⟨8, "bob"⟩ (by decide) rfl (by decide) rfl (by decide),
   (putMemo_first_failing_check hexMongoose 30 idA bobSession (.str "x") storeAB).2.2.2.2.2.1
     "x" ⟨8, "bob"⟩ memoA (by decide) rfl (by decide) rfl (by decide) (by decide),
   (putMemo_first_failing_check hexMongoose 30 idA aliceSession (.str "x") storeAB).2.2.2.2.2.2.2
     ⟨by decide, "x", ⟨7, "alice"⟩, memoA, rfl, by decide, rfl, by decide, by decide⟩⟩

/-- C2 at concrete requests: the edit of alice replaces memo A and nothing
else; the edit of bob on memo A is refused and the store stays. -/
theorem putMemo_store_effect_witness :
    (putMemo hexMongoose 30 idA aliceSession (.str "x") storeAB).2
      = [{ memoA with contents := "x", date_edited := some 30, is_edited := true }, memoB] ∧
    (∃ pre post m', storeAB = pre ++ memoA :: post ∧
        (∀ x ∈ pre, x._id ≠ hexMongoose.objectId idA) ∧
        (putMemo hexMongoose 30 idA aliceSession (.str "x") storeAB).2 = pre ++ m' :: post ∧
        findById (putMemo hexMongoose 30 idA aliceSession (.str "x") storeAB).2
          (hexMongoose.objectId idA) = some m' ∧
        (putMemo hexMongoose 30 idA aliceSession (.str "x") storeAB).1
          = ⟨200, .successMemo m'⟩ ∧
        m'.contents = "x" ∧ m'.is_edited = true ∧ m'._id = memoA._id ∧
        m'.writer = memoA.writer ∧ m'.starred = memoA.starred) ∧
    (putMemo hexMongoose 30 idA bobSession (.str "x") storeAB).2 = storeAB :=
  ⟨by decide,
   (putMemo_store_effect hexMongoose 30 idA aliceSession (.str "x") storeAB).2.1
     "x" ⟨7, "alice"⟩ memoA (by decide) rfl (by decide) rfl (by decide) (by decide),
   ((putMemo_store_effect hexMongoose 30 idA bobSession (.str "x") storeAB).2.2
     ⟨8, "bob"⟩ memoA rfl (by decide) (by decide)).1⟩

/-- C3 at concrete requests: the delete of bob on memo A is refused, the delete
of alice removes memo A and keeps memo B. -/
theorem deleteMemo_first_failing_check_witness :
    deleteMemo hexMongoose idA bobSession storeAB
      = (⟨403, .error "PERMISSION FAILURE" 4⟩, storeAB) ∧
    deleteMemo hexMongoose idA aliceSession storeAB
      = (⟨200, .success⟩, storeAB.filter (fun x => x._id != hexMongoose.objectId idA)) ∧
    storeAB.filter (fun x => x._id != hexMongoose.objectId idA) = [memoB] :=
  ⟨(deleteMemo_first_failing_check hexMongoose idA bobSession storeAB).2.2.2.1
     ⟨8, "bob"⟩ memoA (by decide) rfl (by decide) (by decide),
   (deleteMemo_first_failing_check hexMongoose idA aliceSession storeAB).2.2.2.2.1
     ⟨7, "alice"⟩ memoA (by decide) rfl (by decide) (by decide),
   by decide⟩

/-- C4 at concrete requests: a create without session is refused, a create of
alice appends one memo of alice. -/
theorem postMemo_checks_and_insert_witness :
    postMemo 99 30 ⟨none⟩ (.str "third") storeAB
      = (⟨403, .error "NOT LOGGED IN" 1⟩, storeAB) ∧
    (∃ m, postMemo 99 30 aliceSession (.str "third") storeAB
        = (⟨200, .success⟩, storeAB ++ [m]) ∧
      m.writer = "alice" ∧ m.contents = "third") :=
  ⟨(postMemo_checks_and_insert 99 30 ⟨none⟩ (.str "third") storeAB).1 rfl,
   (postMemo_checks_and_insert 99 30 aliceSession (.str "third") storeAB).2.2.2
     ⟨7, "alice"⟩ "third" rfl rfl (by decide)⟩

/-! ## The lists of a user -/

theorem getUserMemoPage_restricted (mongoose : Mongoose) (username listType id : String)
    (store : Store) :
    getUserMemoPage mongoose username listType id store
      = getMemoPage mongoose listType id (store.filter (fun m => m.writer == username)) := by
  have h1 : ∀ q : Memo → Bool,
      store.filter (fun m => m.writer == username && q m)
        = (store.filter (fun m => m.writer == username)).filter q := by
    intro q
    rw [List.filter_filter]
    congr 1
    funext m
    exact Bool.and_comm _ _
  unfold getUserMemoPage getMemoPage
  simp only [h1]

/-- C11: ListByUser of `u` is ListGlobal on the store restricted to the memos
with writer `u`, and ListByUserPage of `u` is ListGlobalPage on that restricted
store, for every list type and cursor, the error responses included. -/
theorem getUserMemo_eq_restricted (mongoose : Mongoose) (username listType id : String)
    (store : Store) :
    getUserMemo username store = getMemo (store.filter (fun m => m.writer == username)) ∧
    getUserMemoPage mongoose username listType id store
      = getMemoPage mongoose listType id (store.filter (fun m => m.writer == username)) := by
  exact ⟨rfl, getUserMemoPage_restricted mongoose username listType id store⟩

/-- C11 on the eight-memo store: the old page of alice from cursor nine is her
memos 7, 5, 3 and 1, and a bad list type is refused the same way. -/
theorem getUserMemo_eq_restricted_witness :
    getUserMemoPage hexMongoose "alice" "old" idNine storeEight
      = ⟨200, .memos [numberedMemo 7, numberedMemo 5, numberedMemo 3, numberedMemo 1]⟩ ∧
    getUserMemoPage hexMongoose "alice" "up" idNine storeEight
      = ⟨400, .error "INVALID LISTTYPE" 1⟩ ∧
    getUserMemoPage hexMongoose "alice" "old" idNine storeEight
      = getMemoPage hexMongoose "old" idNine
          (storeEight.filter (fun m => m.writer == "alice")) :=
  ⟨by decide, by decide,
    (getUserMemo_eq_restricted hexMongoose "alice" "old" idNine storeEight).2⟩

/-! ## Register: `POST /api/account/signup` -/

theorem signup_bad_username (lib : AccountLib) (newId : ObjectId) (salt : String)
    (username password : JsVal) (accounts : Accounts)
    (h : usernameRegexTest username = .ok false) :
    signup lib newId salt username password accounts
      = .ok (⟨400, .error "BAD USERNAME" 1⟩, accounts) := by
  simp [signup, h]

/-- C12, at a request the claim covers: the username `Bad Name` does not pass
the test and the password `abc` is short; the answer is BAD USERNAME, not
BAD PASSWORD. -/
theorem signup_short_password_counterexample :
    jsLength "abc" < 4 ∧ usernameRegexTest (.str "Bad Name") = .ok false ∧
    signup exampleLib 9 "s9" (.str "Bad Name") (.str "abc") accountsAB
      = .ok (⟨400, .error "BAD USERNAME" 1⟩, accountsAB) ∧
    signup exampleLib 9 "s9" (.str "Bad Name") (.str "abc") accountsAB
      ≠ .ok (⟨400, .error "BAD PASSWORD" 2⟩, accountsAB) := by
  refine ⟨by decide, by decide, by decide, by decide⟩

/-- C12, amended: for a Register request whose password is a string of length
less than 4, the answer is BAD PASSWORD (code 2) when the test `^[a-z0-9]+$`
answers yes on the username and BAD USERNAME (code 1) when it answers no; no
account is inserted in either case. -/
theorem signup_short_password (lib : AccountLib) (newId : ObjectId) (salt : String)
    (username : JsVal) (p : String) (accounts : Accounts) (hp : jsLength p < 4) :
    (usernameRegexTest username = .ok true →
      signup lib newId salt username (.str p) accounts
        = .ok (⟨400, .error "BAD PASSWORD" 2⟩, accounts)) ∧
    (usernameRegexTest username = .ok false →
      signup lib newId salt username (.str p) accounts
        = .ok (⟨400, .error "BAD USERNAME" 1⟩, accounts)) := by
  constructor
  · intro hu
    simp [signup, hu, hp]
  · intro hu
    exact signup_bad_username lib newId salt username (.str p) accounts hu

/-- C12, amended, at concrete requests: the username `carol` passes the test,
the username `Bad Name` does not, and the password `abc` is short. -/
theorem signup_short_password_witness :
    signup exampleLib 9 "s9" (.str "carol") (.str "abc") accountsAB
      = .ok (⟨400, .error "BAD PASSWORD" 2⟩, accountsAB) ∧
    signup exampleLib 9 "s9" (.str "Bad Name") (.str "abc") accountsAB
      = .ok (⟨400, .error "BAD USERNAME" 1⟩, accountsAB) :=
  ⟨(signup_short_password exampleLib 9 "s9" (.str "carol") "abc" accountsAB (by decide)).1
    (by decide),
   (signup_short_password exampleLib 9 "s9" (.str "Bad Name") "abc" accountsAB
    (by decide)).2 (by decide)⟩

/-- The test of the username throws on an object with an own property
`toString`, and the route with it, whatever the password. -/
theorem signup_username_throws (lib : AccountLib) (newId : ObjectId) (salt : String)
    (password : JsVal) (accounts : Accounts) :
    usernameRegexTest (.obj [("toString", .num 1)])
      = .error "TypeError: Cannot convert object to primitive value" ∧
    signup lib newId salt (.obj [("toString", .num 1)]) password accounts
      = .error "TypeError: Cannot convert object to primitive value" := by
  have hu : usernameRegexTest (.obj [("toString", .num 1)])
      = .error "TypeError: Cannot convert object to primitive value" := by decide
  exact ⟨hu, by simp [signup, hu]⟩

/-- The part of C13 the route keeps: with a username that passes the test, a
short string and any value that is neither a string nor `undefined` nor `null`
are answered BAD PASSWORD (code 2) and no account is inserted, provided the
comparison of the `length` property of an object password does not throw. -/
theorem signup_bad_password (lib : AccountLib) (newId : ObjectId) (salt : String)
    (username password : JsVal) (accounts : Accounts)
    (hu : usernameRegexTest username = .ok true)
    (h1 : password ≠ .undefined) (h2 : password ≠ .null)
    (h3 : ∀ p, password = .str p → jsLength p < 4)
    (h4 : ∀ fields, password = .obj fields →
      comparisonRuns (getField fields "length") = .ok ()) :
    signup lib newId salt username password accounts
      = .ok (⟨400, .error "BAD PASSWORD" 2⟩, accounts) := by
  cases password with
  | undefined => exact absurd rfl h1
  | null => exact absurd rfl h2
  | str p => simp [signup, hu, h3 p rfl]
  | bool b => simp [signup, hu]
  | num n => simp [signup, hu]
  | arr items => simp [signup, hu]
  | obj fields => simp [signup, hu, h4 fields rfl]

/-- C13, the run of the route at the failing input: with the valid username
`alice` and an absent or null password the handler throws a TypeError and
sends no response. -/
theorem signup_absent_password_throws (lib : AccountLib) (newId : ObjectId) (salt : String)
    (accounts : Accounts) :
    signup lib newId salt (.str "alice") .undefined accounts
      = .error "TypeError: Cannot read property 'length' of undefined" ∧
    signup lib newId salt (.str "alice") .null accounts
      = .error "TypeError: Cannot read property 'length' of null" := by
  have hu : usernameRegexTest (.str "alice") = .ok true := by decide
  constructor <;> simp [signup, hu]

/-- The part of C14 the route keeps: a username that is a string and is not a
non-empty string of the characters a-z and 0-9 is answered BAD USERNAME
(code 1) and no account is inserted. -/
theorem signup_bad_username_string (lib : AccountLib) (newId : ObjectId) (salt : String)
    (u : String) (password : JsVal) (accounts : Accounts)
    (h : ¬ (u ≠ "" ∧ ∀ c ∈ u.data, isUsernameChar c = true)) :
    signup lib newId salt (.str u) password accounts
      = .ok (⟨400, .error "BAD USERNAME" 1⟩, accounts) := by
  apply signup_bad_username
  by_cases hempty : u = ""
  · subst hempty
    decide
  · have hne : u.data ≠ [] := fun e => hempty (String.ext (by simpa using e))
    have hall : ¬ ∀ c ∈ u.data, isUsernameChar c = true := fun hc => h ⟨hempty, hc⟩
    have : u.data.all isUsernameChar = false := by
      rw [Bool.eq_false_iff]
      intro hh
      exact hall (List.all_eq_true.1 hh)
    simp [usernameRegexTest, toStringJs, this]

/-- C14, the run of the route at the failing input: the test
`/^[a-z0-9]+$/.test` passes on an absent, a null, a boolean and a numeric
username, whose texts are `undefined`, `null`, `true`, `123`; so a Register
request with an absent username and the password `pass1` is never answered
BAD USERNAME, and with the library of the examples it inserts an account
without username. -/
theorem signup_absent_username_passes (lib : AccountLib) (newId : ObjectId) (salt : String)
    (accounts : Accounts) :
    usernameRegexTest .undefined = .ok true ∧ usernameRegexTest .null = .ok true ∧
    usernameRegexTest (.bool true) = .ok true ∧ usernameRegexTest (.num 123) = .ok true ∧
    signup lib newId salt .undefined (.str "pass1") accounts
      ≠ .ok (⟨400, .error "BAD USERNAME" 1⟩, accounts) ∧
    signup exampleLib 9 "s9" .undefined (.str "pass1") accountsAB
      = .ok (⟨200, .success⟩,
          accountsAB ++ [{ _id := 9, username := none, password := "s9$pass1",
                           salt := "s9" }]) := by
  have hu : usernameRegexTest .undefined = .ok true := by decide
  have hp : ¬ jsLength "pass1" < 4 := by decide
  refine ⟨hu, by decide, by decide, by decide, ?_, by decide⟩
  simp only [signup, hu, hp, if_false]
  cases hk : usernameKey lib .undefined with
  | error e => simp
  | ok key =>
    cases hf : findOne accounts key with
    | none => simp [hf]
    | some a => simp [hf]

theorem findOne_eq_none_iff (accounts : Accounts) (key : Option String) :
    findOne accounts key = none ↔ key ∉ accounts.map (fun a => a.username) := by
  simp only [findOne, List.find?_eq_none, List.mem_map, not_exists, not_and]
  constructor
  · intro h a ha e
    exact h a ha (by simp [e])
  · intro h a ha e
    exact h a ha (by simpa using e)

/-- What a run of signup that sends a response leaves in the collection: the
collection as it was, or one more account whose username no stored account
had; the second when the response is a success. -/
theorem signup_ok_cases (lib : AccountLib) (newId : ObjectId) (salt : String)
    (username password : JsVal) (accounts accounts1 : Accounts) (r : Response)
    (h : signup lib newId salt username password accounts = .ok (r, accounts1)) :
    (r.body.isSuccess = false ∧ accounts1 = accounts) ∨
    (r = ⟨200, .success⟩ ∧ ∃ key p, usernameRegexTest username = .ok true ∧
      password = .str p ∧ usernameKey lib username = .ok key ∧
      findOne accounts key = none ∧
      accounts1 = accounts ++ [{ _id := newId, username := key, password := lib.hash p salt,
                                 salt := salt }]) := by
  unfold signup at h
  cases hu : usernameRegexTest username with
  | error e => simp [hu] at h
  | ok b =>
    cases b with
    | false =>
      simp only [hu, Except.ok.injEq, Prod.mk.injEq] at h
      exact Or.inl ⟨by rw [← h.1]; rfl, h.2.symm⟩
    | true =>
      simp only [hu] at h
      cases password with
      | undefined => simp at h
      | null => simp at h
      | bool b =>
        simp only [Except.ok.injEq, Prod.mk.injEq] at h
        exact Or.inl ⟨by rw [← h.1]; rfl, h.2.symm⟩
      | num n =>
        simp only [Except.ok.injEq, Prod.mk.injEq] at h
        exact Or.inl ⟨by rw [← h.1]; rfl, h.2.symm⟩
      | arr items =>
        simp only [Except.ok.injEq, Prod.mk.injEq] at h
        exact Or.inl ⟨by rw [← h.1]; rfl, h.2.symm⟩
      | obj fields =>
        cases hcmp : comparisonRuns (getField fields "length") with
        | error e => simp [hcmp] at h
        | ok u =>
          simp only [hcmp, Except.ok.injEq, Prod.mk.injEq] at h
          exact Or.inl ⟨by rw [← h.1]; rfl, h.2.symm⟩
      | str p =>
        by_cases hp : jsLength p < 4
        · simp only [hp, if_true, Except.ok.injEq, Prod.mk.injEq] at h
          exact Or.inl ⟨by rw [← h.1]; rfl, h.2.symm⟩
        · simp only [hp, if_false] at h
          cases hk : usernameKey lib username with
          | error e => simp [hk] at h
          | ok key =>
            cases hf : findOne accounts key with
            | some a =>
              simp only [hk, hf, Except.ok.injEq, Prod.mk.injEq] at h
              exact Or.inl ⟨by rw [← h.1]; rfl, h.2.symm⟩
            | none =>
              simp only [hk, hf, Except.ok.injEq, Prod.mk.injEq] at h
              exact Or.inr ⟨h.1.symm, key, p, rfl, rfl, rfl, hf, h.2.symm⟩

theorem signup_unique (lib : AccountLib) (newId : ObjectId) (salt : String)
    (username password : JsVal) (accounts accounts1 : Accounts) (r : Response)
    (h : signup lib newId salt username password accounts = .ok (r, accounts1))
    (hnd : UniqueUsernames accounts) : UniqueUsernames accounts1 := by
  rcases signup_ok_cases lib newId salt username password accounts accounts1 r h with
    h1 | ⟨_, key, p, _, _, _, hf, hacc⟩
  · rw [h1.2]
    exact hnd
  · have hnot := (findOne_eq_none_iff accounts key).1 hf
    rw [hacc]
    unfold UniqueUsernames at hnd ⊢
    rw [List.map_append, List.nodup_append]
    refine ⟨hnd, by simp, ?_⟩
    intro a ha hb
    have hb2 : a = key := by simpa using hb
    exact hnot (by rw [← hb2]; exact ha)

/-- C15: after a successful Register of the username `u`, a Register of `u`
with another valid password is answered USERNAME EXISTS (code 3) and leaves the
accounts as they were; and a Register never makes two accounts share a
username: distinct usernames before a request are distinct after it. -/
theorem signup_twice_username_exists (lib : AccountLib) (newId newId2 : ObjectId)
    (salt salt2 : String) (u p p2 : String) (accounts accounts1 : Accounts) (r : Response)
    (h1 : signup lib newId salt (.str u) (.str p) accounts = .ok (r, accounts1))
    (hr : r.body.isSuccess = true) (hp2 : 4 ≤ jsLength p2) :
    signup lib newId2 salt2 (.str u) (.str p2) accounts1
      = .ok (⟨409, .error "USERNAME EXISTS" 3⟩, accounts1) ∧
    (UniqueUsernames accounts → UniqueUsernames accounts1) ∧
    (∀ (newId3 : ObjectId) (salt3 : String) (username password : JsVal) (r3 : Response)
       (accounts3 : Accounts), UniqueUsernames accounts1 →
       signup lib newId3 salt3 username password accounts1 = .ok (r3, accounts3) →
       UniqueUsernames accounts3) := by
  refine ⟨?_, signup_unique lib newId salt _ _ accounts accounts1 r h1, ?_⟩
  · rcases signup_ok_cases lib newId salt _ _ accounts accounts1 r h1 with
      h0 | ⟨_, key, q, hu, _, hk, _, hacc⟩
    · rw [h0.1] at hr
      exact absurd hr (by simp)
    · have hkey : key = some u := by
        simpa [usernameKey] using hk.symm
      have hfound : findOne accounts1 (some u) ≠ none := by
        rw [Ne, findOne_eq_none_iff, hacc]
        simp [hkey]
      have hp : ¬ jsLength p2 < 4 := by omega
      cases hf : findOne accounts1 (some u) with
      | none => exact absurd hf hfound
      | some a => simp [signup, hu, hp, usernameKey, hf]
  · intro newId3 salt3 username password r3 accounts3 hnd h3
    exact signup_unique lib newId3 salt3 username password accounts1 accounts3 r3 h3 hnd

/-- C15 at concrete requests: carol registers with `pass3` on the two-account
collection, then again with `pass4`. -/
theorem signup_twice_username_exists_witness :
    signup exampleLib 9 "s9" (.str "carol") (.str "pass3") accountsAB
      = .ok (⟨200, .success⟩, accountsAB ++ [carolAccount]) ∧
    signup exampleLib 10 "s10" (.str "carol") (.str "pass4") (accountsAB ++ [carolAccount])
      = .ok (⟨409, .error "USERNAME EXISTS" 3⟩, accountsAB ++ [carolAccount]) ∧
    (UniqueUsernames accountsAB → UniqueUsernames (accountsAB ++ [carolAccount])) :=
  ⟨by decide,
   (signup_twice_username_exists exampleLib 9 10 "s9" "s10" "carol" "pass3" "pass4"
      accountsAB (accountsAB ++ [carolAccount]) ⟨200, .success⟩
      (by decide) (by decide) (by decide)).1,
   (signup_twice_username_exists exampleLib 9 10 "s9" "s10" "carol" "pass3" "pass4"
      accountsAB (accountsAB ++ [carolAccount]) ⟨200, .success⟩
      (by decide) (by decide) (by decide)).2.1⟩

/-! ## Authenticate: `POST /api/account/signin` -/

/-- C16: when the collection has an account with the given username and the
hash of the string password under the account's salt differs from the stored
hash, Authenticate answers PASSWORD IS NOT CORRECT (code 3) and leaves the
session as it was; and for every password the signin either succeeds and sets
`loginInfo` to the id and username of that account, or is rejected and leaves
the session as it was. -/
theorem signin_wrong_password (lib : AccountLib) (username p : String) (session : Session)
    (accounts : Accounts) (account : Account)
    (hf : findOne accounts (some username) = some account)
    (hne : lib.hash p account.salt ≠ account.password) :
    signin lib username (.str p) session accounts
      = (⟨401, .error "PASSWORD IS NOT CORRECT" 3⟩, session) ∧
    account.username = some username ∧
    (∀ password : JsVal,
      ((signin lib username password session accounts).1 = ⟨200, .success⟩ ∧
        (signin lib username password session accounts).2.loginInfo
          = some { _id := account._id, username := username }) ∨
      ((signin lib username password session accounts).1.body.isSuccess = false ∧
        (signin lib username password session accounts).2 = session)) := by
  have hname : account.username = some username := by
    have := List.find?_some hf
    simpa using this
  refine ⟨by simp [signin, hf, hne], hname, ?_⟩
  intro password
  cases password with
  | str q =>
    by_cases hq : lib.hash q account.salt = account.password
    · left
      simp [signin, hf, hq, hname]
    · right
      simp [signin, hf, hq, Body.isSuccess]
  | undefined => right; simp [signin, Body.isSuccess]
  | null => right; simp [signin, Body.isSuccess]
  | bool b => right; simp [signin, Body.isSuccess]
  | num n => right; simp [signin, Body.isSuccess]
  | arr items => right; simp [signin, Body.isSuccess]
  | obj fields => right; simp [signin, Body.isSuccess]

/-- C16 at a concrete request: a signin of alice with the password `wrong`. -/
theorem signin_wrong_password_witness :
    signin exampleLib "alice" (.str "wrong") ⟨none⟩ accountsAB
      = (⟨401, .error "PASSWORD IS NOT CORRECT" 3⟩, ⟨none⟩) ∧
    signin exampleLib "alice" (.str "pass1") ⟨none⟩ accountsAB
      = (⟨200, .success⟩, ⟨some ⟨7, "alice"⟩⟩) :=
  ⟨(signin_wrong_password exampleLib "alice" "wrong" ⟨none⟩ accountsAB aliceAccount
      (by decide) (by decide)).1, by decide⟩

/-! ## The status of a rejection -/

theorem fits_error (status : Nat) (e0 : String) (c0 : Nat)
    (h : statusFitsClass e0 status = true) : RejectionFitsClass ⟨status, .error e0 c0⟩ := by
  intro e c hb
  have : e0 = e := by
    simp only [Body.error.injEq] at hb
    exact hb.1
  subst this
  exact h

theorem postMemo_fits (newId : ObjectId) (now : Nat) (session : Session) (contents : JsVal)
    (store : Store) : RejectionFitsClass (postMemo newId now session contents store).1 := by
  unfold postMemo
  repeat' split
  all_goals first
    | exact fits_error _ _ _ (by decide)
    | (intro e c h; simp at h)

theorem putMemo_fits (mongoose : Mongoose) (now : Nat) (id : String) (session : Session)
    (contents : JsVal) (store : Store) :
    RejectionFitsClass (putMemo mongoose now id session contents store).1 := by
  unfold putMemo
  repeat' split
  all_goals first
    | exact fits_error _ _ _ (by decide)
    | (intro e c h; simp at h)

theorem deleteMemo_fits (mongoose : Mongoose) (id : String) (session : Session)
    (store : Store) : RejectionFitsClass (deleteMemo mongoose id session store).1 := by
  unfold deleteMemo
  repeat' split
  all_goals first
    | exact fits_error _ _ _ (by decide)
    | (intro e c h; simp at h)

theorem postStar_fits (mongoose : Mongoose) (id : String) (session : Session)
    (store : Store) : RejectionFitsClass (postStar mongoose id session store).1 := by
  unfold postStar
  repeat' split
  all_goals first
    | exact fits_error _ _ _ (by decide)
    | (intro e c h; simp at h)

theorem getMemoPage_fits (mongoose : Mongoose) (listType id : String) (store : Store) :
    RejectionFitsClass (getMemoPage mongoose listType id store) := by
  unfold getMemoPage
  repeat' split
  all_goals first
    | exact fits_error _ _ _ (by decide)
    | (intro e c h; simp at h)

theorem getinfo_fits (session : Session) : RejectionFitsClass (getinfo session) := by
  unfold getinfo
  split
  · exact fits_error _ _ _ (by decide)
  · intro e c h
    simp at h

theorem signup_fits (lib : AccountLib) (newId : ObjectId) (salt : String)
    (username password : JsVal) (accounts accounts1 : Accounts) (r : Response)
    (h : signup lib newId salt username password accounts = .ok (r, accounts1)) :
    RejectionFitsClass r := by
  unfold signup at h
  repeat' split at h
  all_goals first
    | (simp only [Except.ok.injEq, Prod.mk.injEq] at h
       rw [← h.1]
       first
         | exact fits_error _ _ _ (by decide)
         | (intro e c hb; simp at hb))
    | simp at h

theorem signin_rejection_status (lib : AccountLib) (username : String) (password : JsVal)
    (session : Session) (accounts : Accounts) (e : String) (c : Nat)
    (h : (signin lib username password session accounts).1.body = .error e c) :
    (signin lib username password session accounts).1.status = 401 := by
  unfold signin at h ⊢
  repeat' split
  all_goals first
    | rfl
    | simp_all

/-- C17, at requests the claim covers: a signin with a password that is not a
string, and a signin of a username without account, are rejected with status
401, where the classes of the claim give 400 and 404. -/
theorem signin_status_counterexample :
    (signin exampleLib "alice" (.num 5) ⟨none⟩ accountsAB).1
      = ⟨401, .error "PASSWORD IS NOT STRING" 1⟩ ∧
    statusFitsClass "PASSWORD IS NOT STRING" 401 = false ∧
    (signin exampleLib "dave" (.str "pass1") ⟨none⟩ accountsAB).1
      = ⟨401, .error "THERE IS NO USER" 2⟩ ∧
    statusFitsClass "THERE IS NO USER" 401 = false := by
  refine ⟨by decide, by decide, by decide, by decide⟩

/-- C17, amended: in every memo operation, in Register and in CurrentIdentity
each rejection carries the status of its error class (400 for malformed input,
401 or 403 for a missing session or a non-owner, 404 for an absent memo, 409
for a taken username); in Authenticate every rejection (password not a string,
no account of that username, wrong password) has status 401. -/
theorem rejection_status_classes (mongoose : Mongoose) (lib : AccountLib)
    (newId : ObjectId) (now : Nat) (salt id listType u : String) (session : Session)
    (contents username password : JsVal) (store : Store) (accounts : Accounts) :
    RejectionFitsClass (postMemo newId now session contents store).1 ∧
    RejectionFitsClass (putMemo mongoose now id session contents store).1 ∧
    RejectionFitsClass (deleteMemo mongoose id session store).1 ∧
    RejectionFitsClass (postStar mongoose id session store).1 ∧
    RejectionFitsClass (getMemo store) ∧
    RejectionFitsClass (getMemoPage mongoose listType id store) ∧
    RejectionFitsClass (getUserMemo u store) ∧
    RejectionFitsClass (getUserMemoPage mongoose u listType id store) ∧
    RejectionFitsClass (getinfo session) ∧
    RejectionFitsClass (logout session).1 ∧
    (∀ r accounts1, signup lib newId salt username password accounts = .ok (r, accounts1) →
      RejectionFitsClass r) ∧
    (∀ e c, (signin lib u password session accounts).1.body = .error e c →
      (signin lib u password session accounts).1.status = 401) := by
  refine ⟨postMemo_fits _ _ _ _ _, putMemo_fits _ _ _ _ _ _, deleteMemo_fits _ _ _ _,
    postStar_fits _ _ _ _, ?_, getMemoPage_fits _ _ _ _, ?_, ?_, getinfo_fits _, ?_, ?_, ?_⟩
  · intro e c h
    simp [getMemo] at h
  · intro e c h
    simp [getUserMemo] at h
  · rw [(getUserMemoPage_restricted mongoose u listType id store)]
    exact getMemoPage_fits _ _ _ _
  · intro e c h
    simp [logout] at h
  · intro r accounts1 h
    exact signup_fits lib newId salt username password accounts accounts1 r h
  · intro e c h
    exact signin_rejection_status lib u password session accounts e c h

/-- C17, amended, at concrete requests: an edit with an ill-formed id is
rejected with 400, a register of a taken username with 409, a signin of an
unknown username with 401. -/
theorem rejection_status_classes_witness :
    (putMemo hexMongoose 30 "xyz" aliceSession (.str "x") storeAB).1
      = ⟨400, .error "INVALID ID" 1⟩ ∧
    RejectionFitsClass (putMemo hexMongoose 30 "xyz" aliceSession (.str "x") storeAB).1 ∧
    signup exampleLib 9 "s9" (.str "alice") (.str "pass3") accountsAB
      = .ok (⟨409, .error "USERNAME EXISTS" 3⟩, accountsAB) ∧
    RejectionFitsClass ⟨409, .error "USERNAME EXISTS" 3⟩ ∧
    (signin exampleLib "dave" (.str "pass1") ⟨none⟩ accountsAB).1.status = 401 :=
  ⟨by decide,
   (rejection_status_classes hexMongoose exampleLib 9 30 "s9" "xyz" "old" "dave" aliceSession
      (.str "x") (.str "alice") (.str "pass1") storeAB accountsAB).2.1,
   by decide,
   (rejection_status_classes hexMongoose exampleLib 9 30 "s9" "xyz" "old" "dave" aliceSession
      (.str "x") (.str "alice") (.str "pass3") storeAB accountsAB).2.2.2.2.2.2.2.2.2.2.1
      ⟨409, .error "USERNAME EXISTS" 3⟩ accountsAB (by decide),
   (rejection_status_classes hexMongoose exampleLib 9 30 "s9" "xyz" "old" "dave" ⟨none⟩
      (.str "x") (.str "alice") (.str "pass1") storeAB accountsAB).2.2.2.2.2.2.2.2.2.2.2
      "THERE IS NO USER" 2 (by decide)⟩

/-! ## The checks of a page request -/

/-- C18, at a request the claim covers: the cursor `xyz` is ill-formed and the
direction `sideways` is not accepted; both page routes answer
INVALID LISTTYPE, not INVALID ID. -/
theorem getMemoPage_check_order_counterexample :
    hexMongoose.isValid "xyz" = false ∧
    getMemoPage hexMongoose "sideways" "xyz" storeAB = ⟨400, .error "INVALID LISTTYPE" 1⟩ ∧
    getUserMemoPage hexMongoose "alice" "sideways" "xyz" storeAB
      = ⟨400, .error "INVALID LISTTYPE" 1⟩ := by
  refine ⟨by decide, by decide, by decide⟩

/-- C18, amended: a page request (global or of a user) whose direction is
neither `old` nor `new` is answered INVALID LISTTYPE (code 1), whatever the
cursor; INVALID ID (code 2) is the answer exactly when the direction is one of
the two and the cursor is ill-formed; otherwise the answer is a list of
memos. -/
theorem getMemoPage_check_order (mongoose : Mongoose) (username listType id : String)
    (store : Store) :
    (listType ≠ "old" → listType ≠ "new" →
      getMemoPage mongoose listType id store = ⟨400, .error "INVALID LISTTYPE" 1⟩ ∧
      getUserMemoPage mongoose username listType id store
        = ⟨400, .error "INVALID LISTTYPE" 1⟩) ∧
    (listType = "old" ∨ listType = "new" → mongoose.isValid id = false →
      getMemoPage mongoose listType id store = ⟨400, .error "INVALID ID" 2⟩ ∧
      getUserMemoPage mongoose username listType id store = ⟨400, .error "INVALID ID" 2⟩) ∧
    (listType = "old" ∨ listType = "new" → mongoose.isValid id = true →
      ∃ page upage, getMemoPage mongoose listType id store = ⟨200, .memos page⟩ ∧
        getUserMemoPage mongoose username listType id store = ⟨200, .memos upage⟩) := by
  refine ⟨?_, ?_, ?_⟩
  · intro h1 h2
    simp [getMemoPage, getUserMemoPage, h1, h2]
  · intro h hv
    rcases h with rfl | rfl <;> simp [getMemoPage, getUserMemoPage, hv]
  · intro h hv
    rcases h with rfl | rfl
    · exact ⟨_, _, getMemoPage_old_eq mongoose id store hv,
        (getUserMemoPage_restricted mongoose username "old" id store).trans
          (getMemoPage_old_eq mongoose id _ hv)⟩
    · exact ⟨_, _, getMemoPage_new_eq mongoose id store hv,
        (getUserMemoPage_restricted mongoose username "new" id store).trans
          (getMemoPage_new_eq mongoose id _ hv)⟩

/-- C18, amended, at concrete requests: a bad direction with a well-formed
cursor, and an accepted direction with an ill-formed cursor. -/
theorem getMemoPage_check_order_witness :
    (getMemoPage hexMongoose "sideways" idA storeAB = ⟨400, .error "INVALID LISTTYPE" 1⟩ ∧
      getUserMemoPage hexMongoose "alice" "sideways" idA storeAB
        = ⟨400, .error "INVALID LISTTYPE" 1⟩) ∧
    (getMemoPage hexMongoose "new" "xyz" storeAB = ⟨400, .error "INVALID ID" 2⟩ ∧
      getUserMemoPage hexMongoose "alice" "new" "xyz" storeAB
        = ⟨400, .error "INVALID ID" 2⟩) :=
  ⟨(getMemoPage_check_order hexMongoose "alice" "sideways" idA storeAB).1
      (by decide) (by decide),
   (getMemoPage_check_order hexMongoose "alice" "new" "xyz" storeAB).2.1
      (Or.inr rfl) (by decide)⟩

/-! ## Logout and the username search -/

/-- C19, the run of the route: for every session Logout sends the body
`{ sucess: true }`, whose only key is `sucess`; it has no field `success` and
is not the body `{ success: true }` of Register, Authenticate, Create and
Delete. -/
theorem logout_body_key (session : Session) :
    (logout session).1 = ⟨200, .sucess⟩ ∧
    (logout session).1.body.keys = ["sucess"] ∧
    "success" ∉ (logout session).1.body.keys ∧
    (logout session).1.body ≠ .success ∧
    (logout session).2.loginInfo = none := by
  refine ⟨rfl, rfl, by simp [logout, Body.keys], by simp [logout], rfl⟩

theorem char_eq_of_toNat_eq {a b : Char} (h : a.toNat = b.toNat) : a = b := by
  apply Char.ext
  apply UInt32.ext
  exact h

theorem leChars_total (a b : List Char) : leChars a b = true ∨ leChars b a = true := by
  induction a generalizing b with
  | nil => simp [leChars]
  | cons x xs ih =>
    cases b with
    | nil => simp [leChars]
    | cons y ys =>
      rcases Nat.lt_trichotomy x.toNat y.toNat with h | h | h
      · left; simp [leChars, h]
      · have e := char_eq_of_toNat_eq h
        subst e
        rcases ih ys with h2 | h2
        · left; simp [leChars, h2]
        · right; simp [leChars, h2]
      · right; simp [leChars, h]

theorem leChars_trans (a b c : List Char) (h1 : leChars a b = true)
    (h2 : leChars b c = true) : leChars a c = true := by
  induction a generalizing b c with
  | nil => simp [leChars]
  | cons x xs ih =>
    cases b with
    | nil => simp [leChars] at h1
    | cons y ys =>
      cases c with
      | nil => simp [leChars] at h2
      | cons z zs =>
        simp only [leChars, Bool.or_eq_true, decide_eq_true_eq, Bool.and_eq_true,
          beq_iff_eq] at h1 h2 ⊢
        rcases h1 with h1 | ⟨rfl, h1⟩
        · rcases h2 with h2 | ⟨rfl, h2⟩
          · left; omega
          · left; exact h1
        · rcases h2 with h2 | ⟨rfl, h2⟩
          · left; exact h2
          · right; exact ⟨rfl, ih ys zs h1 h2⟩

theorem sortAscending_perm (l : List String) : (sortAscending l).Perm l :=
  List.perm_insertionSort _ l

theorem sortAscending_sorted (l : List String) :
    (sortAscending l).Pairwise (fun a b => leChars a.data b.data = true) :=
  haveI : IsTotal String (fun a b => leChars a.data b.data = true) :=
    ⟨fun a b => leChars_total a.data b.data⟩
  haveI : IsTrans String (fun a b => leChars a.data b.data = true) :=
    ⟨fun a b c h1 h2 => leChars_trans a.data b.data c.data h1 h2⟩
  List.sorted_insertionSort _ l

/-- The part of C20 the route keeps: when the pattern `'^' + prefix` is read as
the literal prefix test (as it is for a prefix of letters and digits), the
search returns at most 5 usernames, ascending, each a stored username that
begins with the prefix, and every stored username with the prefix that is left
out comes after every username returned. -/
theorem search_literal_prefix (lib : AccountLib) (pre : String) (accounts : Accounts)
    (re : String → Bool) (hre : lib.regExp ("^" ++ pre) = some re)
    (hlit : ∀ s, re s = pre.data.isPrefixOf s.data) :
    ∃ names, search lib pre accounts = .ok ⟨200, .usernames names⟩ ∧
      names.length ≤ 5 ∧
      names.Pairwise (fun a b => leChars a.data b.data = true) ∧
      (∀ n ∈ names, some n ∈ accounts.map (fun a => a.username) ∧
        pre.data.isPrefixOf n.data = true) ∧
      (∀ n, some n ∈ accounts.map (fun a => a.username) →
        pre.data.isPrefixOf n.data = true → n ∉ names →
        ∀ r ∈ names, leChars r.data n.data = true) := by
  have hmem : ∀ n, n ∈ sortAscending ((accounts.filterMap (fun a => a.username)).filter re) ↔
      (some n ∈ accounts.map (fun a => a.username) ∧ pre.data.isPrefixOf n.data = true) := by
    intro n
    rw [(sortAscending_perm _).mem_iff, List.mem_filter, hlit n, List.mem_filterMap,
      List.mem_map]
  refine ⟨(sortAscending ((accounts.filterMap (fun a => a.username)).filter re)).take 5,
    by simp [search, hre], ?_, ?_, ?_, ?_⟩
  · rw [List.length_take]
    exact Nat.min_le_left _ _
  · exact List.Pairwise.sublist (List.take_sublist 5 _) (sortAscending_sorted _)
  · intro n hn
    exact (hmem n).1 (List.mem_of_mem_take hn)
  · intro n hs hp hnot r hr
    have hsplit := List.take_append_drop 5
      (sortAscending ((accounts.filterMap (fun a => a.username)).filter re))
    have hn : n ∈ sortAscending ((accounts.filterMap (fun a => a.username)).filter re) :=
      (hmem n).2 ⟨hs, hp⟩
    rw [← hsplit] at hn
    have hd : n ∈ (sortAscending
        ((accounts.filterMap (fun a => a.username)).filter re)).drop 5 := by
      rcases List.mem_append.1 hn with h | h
      · exact absurd h hnot
      · exact h
    have hp2 := sortAscending_sorted ((accounts.filterMap (fun a => a.username)).filter re)
    rw [← hsplit] at hp2
    exact (List.pairwise_append.1 hp2).2.2 r hr n hd

/-- C20, the run of the route at the failing input: on a collection with the
usernames `alice` and `bob` the search for `a.` returns `alice`, which does not
begin with `a.`, and the search for `.` returns both usernames, neither of
which begins with `.`; the search for `al` returns `alice`. -/
theorem search_pattern_not_literal :
    search exampleLib "a." accountsAB = .ok ⟨200, .usernames ["alice"]⟩ ∧
    ("a.".data.isPrefixOf "alice".data) = false ∧
    search exampleLib "." accountsAB = .ok ⟨200, .usernames ["alice", "bob"]⟩ ∧
    (".".data.isPrefixOf "alice".data) = false ∧
    (".".data.isPrefixOf "bob".data) = false ∧
    search exampleLib "al" accountsAB = .ok ⟨200, .usernames ["alice"]⟩ := by
  refine ⟨by decide, by decide, by decide, by decide, by decide, by decide⟩

/-! ## The traversal of the old pages -/

theorem foldl_min_spec (rest : List Memo) (init : ObjectId) :
    rest.foldl (fun acc x => min acc x._id) init ≤ init ∧
    (∀ x ∈ rest, rest.foldl (fun acc x => min acc x._id) init ≤ x._id) ∧
    (rest.foldl (fun acc x => min acc x._id) init = init ∨
      ∃ x ∈ rest, x._id = rest.foldl (fun acc x => min acc x._id) init) := by
  induction rest generalizing init with
  | nil => simp
  | cons a rest ih =>
    obtain ⟨h1, h2, h3⟩ := ih (min init a._id)
    refine ⟨Nat.le_trans h1 (Nat.min_le_left _ _), ?_, ?_⟩
    · intro x hx
      rcases List.mem_cons.1 hx with rfl | hx
      · exact Nat.le_trans h1 (Nat.min_le_right _ _)
      · exact h2 x hx
    · rcases h3 with h3 | ⟨x, hx, hxe⟩
      · rcases Nat.le_total init a._id with hle | hle
        · left
          simp only [List.foldl_cons]
          rw [h3]
          exact Nat.min_eq_left hle
        · right
          refine ⟨a, by simp, ?_⟩
          simp only [List.foldl_cons]
          rw [h3]
          exact (Nat.min_eq_right hle).symm
      · exact Or.inr ⟨x, by simp [hx], hxe⟩

theorem smallestIdOf_spec (page : List Memo) (c : ObjectId)
    (h : smallestIdOf page = some c) : IsSmallestId page c := by
  cases page with
  | nil => simp [smallestIdOf] at h
  | cons m rest =>
    have hc : rest.foldl (fun acc x => min acc x._id) m._id = c := by
      simpa [smallestIdOf] using h
    obtain ⟨h1, h2, h3⟩ := foldl_min_spec rest m._id
    rw [hc] at h1 h2 h3
    constructor
    · rcases h3 with h3 | ⟨x, hx, hxe⟩
      · exact ⟨m, by simp, h3.symm⟩
      · exact ⟨x, by simp [hx], hxe⟩
    · intro x hx
      rcases List.mem_cons.1 hx with rfl | hx
      · exact h1
      · exact h2 x hx

theorem smallestIdOf_cons (m : Memo) (rest : List Memo) :
    ∃ c, smallestIdOf (m :: rest) = some c :=
  ⟨_, rfl⟩

/-- On a list with distinct identifiers, sorting the memos that pass a test
gives the sorted list restricted to the test. -/
theorem sortByIdDesc_filter (l : List Memo) (q : Memo → Bool) (hnd : DistinctIds l) :
    sortByIdDesc (l.filter q) = (sortByIdDesc l).filter q := by
  haveI : IsAntisymm Memo (fun a b => b._id < a._id) :=
    ⟨fun _ _ h1 h2 => absurd (Nat.lt_trans h1 h2) (Nat.lt_irrefl _)⟩
  have hperm : (sortByIdDesc (l.filter q)).Perm ((sortByIdDesc l).filter q) :=
    (sortByIdDesc_perm _).trans ((sortByIdDesc_perm l).symm.filter q)
  have h1 : StrictlyDescending (sortByIdDesc (l.filter q)) :=
    sortByIdDesc_strict _ (distinctIds_filter l q hnd)
  have h2 : StrictlyDescending ((sortByIdDesc l).filter q) :=
    List.Pairwise.sublist (List.filter_sublist _) (sortByIdDesc_strict l hnd)
  exact List.eq_of_perm_of_sorted hperm h1 h2

/-- In a strictly descending list split in two, the memos below the smallest
identifier of the first part are the second part. -/
theorem filter_lt_smallest (A B : List Memo) (c : ObjectId)
    (hdesc : StrictlyDescending (A ++ B)) (hc : IsSmallestId A c) :
    (A ++ B).filter (fun m => decide (m._id < c)) = B := by
  obtain ⟨⟨m0, hm0, hid0⟩, hmin⟩ := hc
  have hcross := (List.pairwise_append.1 hdesc).2.2
  rw [List.filter_append]
  have hA : A.filter (fun m => decide (m._id < c)) = [] := by
    rw [List.filter_eq_nil_iff]
    intro a ha
    have := hmin a ha
    simp only [decide_eq_true_eq, Nat.not_lt]
    exact this
  have hB : B.filter (fun m => decide (m._id < c)) = B := by
    rw [List.filter_eq_self]
    intro b hb
    have := hcross m0 hm0 b hb
    rw [hid0] at this
    simpa using this
  rw [hA, hB, List.nil_append]

theorem traverse_mono (mongoose : Mongoose) (idString : ObjectId → String) (store : Store)
    (fuel : Nat) (page : List Memo) (pages : List (List Memo))
    (h : traverse mongoose idString store fuel page = some pages) (k : Nat) :
    traverse mongoose idString store (fuel + k) page = some pages := by
  induction fuel generalizing page pages with
  | zero => simp [traverse] at h
  | succ fuel ih =>
    rw [Nat.add_right_comm]
    cases hs : smallestIdOf page with
    | none =>
      simp only [traverse, hs] at h ⊢
      exact h
    | some c =>
      simp only [traverse, hs] at h ⊢
      cases hn : traverse mongoose idString store fuel
          (getMemoPage mongoose "old" (idString c) store).memoList with
      | none => simp [hn] at h
      | some rest =>
        rw [ih _ rest hn]
        simpa [hn] using h

/-- The traversal from the page that opens a final part `R` of the sorted
store: it ends, and the pages it returns make up `R`. -/
theorem traverse_suffix (mongoose : Mongoose) (idString : ObjectId → String) (store : Store)
    (hnd : DistinctIds store)
    (hround : ∀ m ∈ store, mongoose.isValid (idString m._id) = true ∧
      mongoose.objectId (idString m._id) = m._id)
    (fuel : Nat) (P R : List Memo) (hsplit : sortByIdDesc store = P ++ R)
    (hfuel : R.length < fuel) :
    ∃ pages, traverse mongoose idString store fuel (R.take 6) = some pages ∧
      pages.flatten = R ∧ ∀ p ∈ pages, p ≠ [] ∧ p.length ≤ 6 := by
  induction fuel generalizing P R with
  | zero => exact absurd hfuel (Nat.not_lt_zero _)
  | succ fuel ih =>
    cases R with
    | nil => exact ⟨[], by simp [traverse, smallestIdOf], by simp, by simp⟩
    | cons r0 R1 =>
      obtain ⟨c, hc⟩ := smallestIdOf_cons r0 (R1.take 5)
      have hpage : (r0 :: R1).take 6 = r0 :: R1.take 5 := rfl
      have hsm := smallestIdOf_spec _ c hc
      rw [← hpage] at hsm hc
      have hdesc : StrictlyDescending (P ++ (r0 :: R1)) := by
        rw [← hsplit]
        exact sortByIdDesc_strict store hnd
      have hre : P ++ (r0 :: R1) = (P ++ (r0 :: R1).take 6) ++ (r0 :: R1).drop 6 := by
        rw [List.append_assoc, List.take_append_drop]
      obtain ⟨⟨m0, hm0, hid0⟩, hmin⟩ := hsm
      have hm0R : m0 ∈ r0 :: R1 := List.mem_of_mem_take hm0
      have hm0store : m0 ∈ store :=
        (sortByIdDesc_perm store).mem_iff.1 (by rw [hsplit]; simp [hm0R])
      have hsmall : IsSmallestId (P ++ (r0 :: R1).take 6) c := by
        refine ⟨⟨m0, List.mem_append_right _ hm0, hid0⟩, ?_⟩
        intro x hx
        rcases List.mem_append.1 hx with hx | hx
        · have := (List.pairwise_append.1 hdesc).2.2 x hx m0 hm0R
          rw [hid0] at this
          exact Nat.le_of_lt this
        · exact hmin x hx
      have hfilter : (sortByIdDesc store).filter (fun m => decide (m._id < c))
          = (r0 :: R1).drop 6 := by
        rw [hsplit, hre]
        exact filter_lt_smallest _ _ c (by rw [← hre]; exact hdesc) hsmall
      have hvalid := hround m0 hm0store
      rw [hid0] at hvalid
      have hnext : (getMemoPage mongoose "old" (idString c) store).memoList
          = ((r0 :: R1).drop 6).take 6 := by
        rw [memoList_getMemoPage_old mongoose (idString c) store hvalid.1, hvalid.2,
          sortByIdDesc_filter store _ hnd, hfilter]
      have hlen : ((r0 :: R1).drop 6).length < fuel := by
        rw [List.length_drop]
        simp only [List.length_cons] at hfuel ⊢
        omega
      obtain ⟨pages, hpages, hflat, hall⟩ :=
        ih (P ++ (r0 :: R1).take 6) ((r0 :: R1).drop 6) (by rw [hsplit, hre]) hlen
      refine ⟨(r0 :: R1).take 6 :: pages, ?_, ?_, ?_⟩
      · simp only [traverse, hc, hnext, hpages]
      · rw [List.flatten_cons, hflat, List.take_append_drop]
      · intro p hp
        rcases List.mem_cons.1 hp with rfl | hp
        · exact ⟨by simp, by rw [List.length_take]; exact Nat.min_le_left _ _⟩
        · exact hall p hp

/-- C21: on a store with distinct identifiers the traversal that starts with
ListGlobal and then asks for the old page of the smallest identifier of the
page just returned, until a page is empty, ends (any fuel above the number of
stored memos is enough), and the pages it returns, none empty and none longer
than 6, put end to end are the whole store in strictly descending order of
identifier, every stored memo once. -/
theorem traversal_covers_store (mongoose : Mongoose) (idString : ObjectId → String)
    (store : Store) (hnd : DistinctIds store)
    (hround : ∀ m ∈ store, mongoose.isValid (idString m._id) = true ∧
      mongoose.objectId (idString m._id) = m._id) :
    ∃ pages, (∀ fuel, store.length < fuel →
        traversal mongoose idString store fuel = some pages) ∧
      pages.flatten = sortByIdDesc store ∧
      StrictlyDescending pages.flatten ∧
      pages.flatten.Perm store ∧
      pages.flatten.Nodup ∧
      (∀ p ∈ pages, p ≠ [] ∧ p.length ≤ 6) := by
  have hlen : (sortByIdDesc store).length < store.length + 1 := by
    rw [(sortByIdDesc_perm store).length_eq]
    exact Nat.lt_succ_self _
  obtain ⟨pages, hpages, hflat, hall⟩ :=
    traverse_suffix mongoose idString store hnd hround (store.length + 1) []
      (sortByIdDesc store) rfl hlen
  have hstrict := sortByIdDesc_strict store hnd
  refine ⟨pages, ?_, hflat, ?_, ?_, ?_, hall⟩
  · intro fuel hfuel
    obtain ⟨k, rfl⟩ : ∃ k, fuel = store.length + 1 + k := ⟨fuel - (store.length + 1), by omega⟩
    exact traverse_mono mongoose idString store _ _ pages hpages k
  · rw [hflat]
    exact hstrict
  · rw [hflat]
    exact sortByIdDesc_perm store
  · rw [hflat]
    exact hstrict.imp (fun h e => absurd (e ▸ h) (Nat.lt_irrefl _))

/-- C21 on the eight-memo store: the traversal returns memos 8 to 3, then
memos 2 and 1, and ends at the empty third page. -/
theorem traversal_covers_store_witness :
    toHex24 (numberedMemo 3)._id = idThree ∧
    traversal hexMongoose toHex24 storeEight 9
      = some [[numberedMemo 8, numberedMemo 7, numberedMemo 6, numberedMemo 5,
               numberedMemo 4, numberedMemo 3], [numberedMemo 2, numberedMemo 1]] ∧
    ∃ pages, (∀ fuel, storeEight.length < fuel →
        traversal hexMongoose toHex24 storeEight fuel = some pages) ∧
      pages.flatten = sortByIdDesc storeEight ∧
      StrictlyDescending pages.flatten ∧
      pages.flatten.Perm storeEight ∧
      pages.flatten.Nodup ∧
      (∀ p ∈ pages, p ≠ [] ∧ p.length ≤ 6) :=
  ⟨by decide, by decide,
    traversal_covers_store hexMongoose toHex24 storeEight (by decide) (by decide)⟩

/-! ## The new page against the old page -/

/-- In a strictly descending list the memos above a bound are an initial part
of the list. -/
theorem filter_gt_prefix (L : List Memo) (c : ObjectId) (hdesc : StrictlyDescending L) :
    L.filter (fun m => decide (m._id > c))
      = L.take (L.filter (fun m => decide (m._id > c))).length := by
  induction L with
  | nil => simp
  | cons a rest ih =>
    have hrest : StrictlyDescending rest := (List.pairwise_cons.1 hdesc).2
    have hhead := (List.pairwise_cons.1 hdesc).1
    by_cases ha : a._id > c
    · have e : (a :: rest).filter (fun m => decide (m._id > c))
          = a :: rest.filter (fun m => decide (m._id > c)) := by
        simp [List.filter_cons, ha]
      rw [e, List.length_cons, List.take_succ_cons, ← ih hrest]
    · have hnone : rest.filter (fun m => decide (m._id > c)) = [] := by
        rw [List.filter_eq_nil_iff]
        intro b hb
        have hba := hhead b hb
        simp only [decide_eq_true_eq]
        exact fun h => ha (Nat.lt_trans h hba)
      have e : (a :: rest).filter (fun m => decide (m._id > c)) = [] := by
        rw [List.filter_cons, hnone]
        simp [ha]
      rw [e]
      simp

/-- With more than 6 memos above the cursor the new page is the first 6 memos
of the sorted store. -/
theorem getMemoPage_new_eq_top (mongoose : Mongoose) (store : Store) (C : String)
    (hnd : DistinctIds store) (hv : mongoose.isValid C = true)
    (hmore : 6 < (store.filter (fun m => decide (m._id > mongoose.objectId C))).length) :
    getMemoPage mongoose "new" C store = ⟨200, .memos ((sortByIdDesc store).take 6)⟩ := by
  rw [getMemoPage_new_eq mongoose C store hv, sortByIdDesc_filter store _ hnd,
    filter_gt_prefix _ _ (sortByIdDesc_strict store hnd), List.take_take]
  have hlen : ((sortByIdDesc store).filter
      (fun m => decide (m._id > mongoose.objectId C))).length
      = (store.filter (fun m => decide (m._id > mongoose.objectId C))).length :=
    ((sortByIdDesc_perm store).filter _).length_eq
  rw [hlen, Nat.min_eq_left (Nat.le_of_lt hmore)]

/-- A list of more than 6 strictly descending memos has a memo that is below
all the others and is not among the first 6. -/
theorem last_below_first_six (T : List Memo) (hdesc : StrictlyDescending T)
    (hlen : 6 < T.length) :
    ∃ m ∈ T, (∀ x ∈ T, m._id ≤ x._id) ∧ m ∉ T.take 6 ∧ ∀ r ∈ T.take 6, m._id < r._id := by
  have hne : T ≠ [] := by
    intro e
    rw [e] at hlen
    exact absurd hlen (by simp)
  have hlast := List.dropLast_append_getLast hne
  have hp : (T.dropLast ++ [T.getLast hne]).Pairwise (fun a b => b._id < a._id) := by
    rw [hlast]
    exact hdesc
  have hbelow : ∀ a ∈ T.dropLast, (T.getLast hne)._id < a._id := fun a ha =>
    (List.pairwise_append.1 hp).2.2 a ha _ (by simp)
  have hmin : ∀ x ∈ T, (T.getLast hne)._id ≤ x._id := by
    intro x hx
    rw [← hlast] at hx
    rcases List.mem_append.1 hx with h | h
    · exact Nat.le_of_lt (hbelow x h)
    · have : x = T.getLast hne := by simpa using h
      rw [this]
  have hsplit := List.take_append_drop 6 T
  have hp2 : (T.take 6 ++ T.drop 6).Pairwise (fun a b => b._id < a._id) := by
    rw [hsplit]
    exact hdesc
  have hdrop : T.drop 6 ≠ [] := by
    intro e
    have := congrArg List.length e
    rw [List.length_drop] at this
    simp only [List.length_nil] at this
    omega
  obtain ⟨y, hy⟩ := List.exists_mem_of_ne_nil _ hdrop
  have hnot : T.getLast hne ∉ T.take 6 := by
    intro hin
    have h1 := (List.pairwise_append.1 hp2).2.2 _ hin y hy
    have h2 := hmin y (List.mem_of_mem_drop hy)
    exact absurd (Nat.lt_of_lt_of_le h1 h2) (Nat.lt_irrefl _)
  refine ⟨T.getLast hne, List.getLast_mem hne, hmin, hnot, ?_⟩
  intro r hr
  have hrT : r ∈ T := List.mem_of_mem_take hr
  rw [← hlast] at hrT
  rcases List.mem_append.1 hrT with h | h
  · exact hbelow r h
  · have : r = T.getLast hne := by simpa using h
    rw [this] at hr
    exact absurd hr hnot

/-- C22: on a store with distinct identifiers and more than 6 memos above a
well-formed cursor `C`, the new page is the 6 memos with the largest
identifiers of the store (the list of ListGlobal), and it leaves out the memo
with the smallest identifier above `C`, which lies between the cursor and every
memo of the page; the old page of `C` leaves out no memo between the cursor and
its own memos: a stored memo below `C` that is not in it is below all of it.
The page of a user does the same on the memos of that user. -/
theorem getMemoPage_new_skips (mongoose : Mongoose) (store : Store) (C : String)
    (hnd : DistinctIds store) (hv : mongoose.isValid C = true)
    (hmore : 6 < (store.filter (fun m => decide (m._id > mongoose.objectId C))).length) :
    (∃ page, getMemoPage mongoose "new" C store = ⟨200, .memos page⟩ ∧
      page = (getMemo store).memoList ∧
      page.length = 6 ∧
      (∀ m ∈ page, m ∈ store) ∧
      (∀ m ∈ store, m ∉ page → ∀ r ∈ page, m._id < r._id) ∧
      (∃ m ∈ store, mongoose.objectId C < m._id ∧
        (∀ x ∈ store, mongoose.objectId C < x._id → m._id ≤ x._id) ∧
        m ∉ page ∧ ∀ r ∈ page, m._id < r._id)) ∧
    (∀ m ∈ store, m._id < mongoose.objectId C →
      m ∉ (getMemoPage mongoose "old" C store).memoList →
      ∀ r ∈ (getMemoPage mongoose "old" C store).memoList, m._id < r._id) ∧
    (∀ username,
      6 < ((store.filter (fun m => m.writer == username)).filter
            (fun m => decide (m._id > mongoose.objectId C))).length →
      getUserMemoPage mongoose username "new" C store
        = ⟨200, .memos ((sortByIdDesc (store.filter (fun m => m.writer == username))).take 6)⟩) := by
  refine ⟨?_, ?_, ?_⟩
  · have htop := take_six_sorted store hnd
    have hF := distinctIds_filter store (fun m => decide (m._id > mongoose.objectId C)) hnd
    have hT := sortByIdDesc_strict _ hF
    have hTlen : 6 < (sortByIdDesc
        (store.filter (fun m => decide (m._id > mongoose.objectId C)))).length := by
      rw [(sortByIdDesc_perm _).length_eq]
      exact hmore
    obtain ⟨m, hmT, hmmin, hmnot, hmlt⟩ := last_below_first_six _ hT hTlen
    have hpage : (sortByIdDesc
        (store.filter (fun m => decide (m._id > mongoose.objectId C)))).take 6
        = (sortByIdDesc store).take 6 := by
      have h1 := getMemoPage_new_eq mongoose C store hv
      have h2 := getMemoPage_new_eq_top mongoose store C hnd hv hmore
      rw [h1] at h2
      simpa using h2
    rw [hpage] at hmnot hmlt
    have hmF : m ∈ store.filter (fun m => decide (m._id > mongoose.objectId C)) :=
      (sortByIdDesc_perm _).mem_iff.1 hmT
    have hmF2 : m ∈ store ∧ mongoose.objectId C < m._id := by simpa using hmF
    have hlenstore : 6 ≤ store.length :=
      Nat.le_trans (Nat.le_of_lt hmore) (List.length_filter_le _ _)
    refine ⟨(sortByIdDesc store).take 6,
      getMemoPage_new_eq_top mongoose store C hnd hv hmore, rfl, ?_, htop.2.2.1, htop.2.2.2,
      m, hmF2.1, hmF2.2, ?_, hmnot, hmlt⟩
    · rw [htop.1]
      exact Nat.min_eq_left hlenstore
    · intro x hx hxC
      apply hmmin x
      apply (sortByIdDesc_perm _).mem_iff.2
      simp [hx, hxC]
  · intro m hm hlt hnot r hr
    rw [memoList_getMemoPage_old mongoose C store hv] at hnot hr
    have h := take_six_sorted (store.filter (fun m => decide (m._id < mongoose.objectId C)))
      (distinctIds_filter store _ hnd)
    exact h.2.2.2 m (by simp [hm, hlt]) hnot r hr
  · intro username hmoreU
    rw [getUserMemoPage_restricted]
    exact getMemoPage_new_eq_top mongoose _ C (distinctIds_filter store _ hnd) hv hmoreU

/-- C22 on the eight-memo store: the new page of cursor zero is memos 8 to 3;
memos 1 and 2, which are above the cursor, are left out. -/
theorem getMemoPage_new_skips_witness :
    numberedMemo 1 ∉ (getMemoPage hexMongoose "new" idZero storeEight).memoList ∧
    ((∃ page, getMemoPage hexMongoose "new" idZero storeEight = ⟨200, .memos page⟩ ∧
      page = (getMemo storeEight).memoList ∧
      page.length = 6 ∧
      (∀ m ∈ page, m ∈ storeEight) ∧
      (∀ m ∈ storeEight, m ∉ page → ∀ r ∈ page, m._id < r._id) ∧
      (∃ m ∈ storeEight, hexMongoose.objectId idZero < m._id ∧
        (∀ x ∈ storeEight, hexMongoose.objectId idZero < x._id → m._id ≤ x._id) ∧
        m ∉ page ∧ ∀ r ∈ page, m._id < r._id)) ∧
    (∀ m ∈ storeEight, m._id < hexMongoose.objectId idZero →
      m ∉ (getMemoPage hexMongoose "old" idZero storeEight).memoList →
      ∀ r ∈ (getMemoPage hexMongoose "old" idZero storeEight).memoList, m._id < r._id) ∧
    (∀ username,
      6 < ((storeEight.filter (fun m => m.writer == username)).filter
            (fun m => decide (m._id > hexMongoose.objectId idZero))).length →
      getUserMemoPage hexMongoose username "new" idZero storeEight
        = ⟨200, .memos ((sortByIdDesc
            (storeEight.filter (fun m => m.writer == username))).take 6)⟩)) :=
  ⟨by decide,
    getMemoPage_new_skips hexMongoose storeEight idZero (by decide) (by decide) (by decide)⟩

end MemoApp
